import Mathlib

/-!
Shallow embedding of the Stream Deck "Test Me" plugin core (`src/index.ts`).

The source is a single TypeScript file.  Pure helpers (`formatSigned`, `clamp`,
`escapeSvg`, the two SVG builders) become pure Lean functions; the stateful
action class (`InputTesterAction`) becomes an explicit system state `Sys`
containing the per-identity key/dial state maps, the `keyTimers` tracking map,
the queue of outstanding JavaScript timers, and an observation trace of the
outbound `setImage` / `setFeedback` calls.  JavaScript timers (`setInterval`,
`setTimeout`) are modelled as records in `Sys.pending` carrying the callback
kind and absolute due time; firing a timer is an explicit step.  JavaScript
numbers are modelled as `ℚ` (all arithmetic performed by the plugin on the
values the claims mention is exact decimal arithmetic), timestamps as `Nat`
milliseconds, and `number | null` fields as `Option`.

Event handlers run single-threadedly in arrival order, exactly as in the
Node.js event loop, so a run of the program is a fold of `Sys.step` over a
list of actions (external events with timestamps, or timer firings).
-/

namespace TestMe

/-- Visual state of a key (`type VisualState` in the source). -/
inductive VisualState where
  | idle
  | down
  | hold
  | up
deriving DecidableEq, Repr

/-- Classification of the last dial interaction (`type DialInputType`). -/
inductive DialInputType where
  | idle
  | press
  | release
  | rotate
  | tap
  | hold
deriving DecidableEq, Repr

/-! ### Constants (transcribed from the constant block of `src/index.ts`) -/

def DIAL_LAYOUT : String := "layouts/dial-layout.json"

def FONT : String := "Segoe UI, Arial, sans-serif"

def MONO_FONT : String := "Consolas, Segoe UI Mono, monospace"

def KEY_SIZE : Nat := 72

def KEY_RADIUS : Nat := 10

def KEY_CHECKER_SIZE : Nat := 6

def KEY_CHECKER_OPACITY : ℚ := 0.03

def KEY_LABEL_FONT_SIZE : Nat := 16

def KEY_COUNTER_FONT_SIZE : Nat := 11

def KEY_HOLD_TIMER_FONT_SIZE : Nat := 20

def KEY_LABEL_Y : Nat := 28

def KEY_HOLD_TIMER_Y : Nat := 48

def KEY_HOLD_SUBTITLE_Y : Nat := 44

def KEY_COUNTER_Y : Nat := 66

def TOUCH_CANVAS_WIDTH : Nat := 200

def TOUCH_CANVAS_HEIGHT : Nat := 100

def DIAL_CHECKER_SIZE : Nat := 12

def DIAL_CHECKER_OPACITY : ℚ := 0.03

def DIAL_RENDER_INTERVAL_MS : Nat := 16

def DIAL_LABEL_SIZE : Nat := 20

def DIAL_LABEL_X : Nat := 10

def DIAL_LABEL_Y : Nat := 24

def DIAL_COUNTER_SIZE : Nat := 14

def DIAL_COUNTER_Y : Nat := 88

def DIAL_ACCENT_BAR_W : Nat := 4

def TOUCH_DOT_RADIUS : Nat := 8

def TOUCH_DOT_GLOW_RADIUS : Nat := 11

def KEY_HOLD_THRESHOLD_MS : Nat := 500

def KEY_HOLD_TIMER_INTERVAL_MS : Nat := 100

def KEY_UP_FLASH_MS : Nat := 2000

def COLOR_IDLE_BG : String := "#111111"

def COLOR_IDLE_TEXT : String := "#808080"

def COLOR_IDLE_COUNTER : String := "#555555"

def COLOR_DOWN_BG : String := "#1A3A5C"

def COLOR_DOWN_TEXT : String := "#66BBFF"

def COLOR_DOWN_RING : String := "#3399FF"

def COLOR_UP_BG : String := "#1A2E1A"

def COLOR_UP_TEXT : String := "#66DD88"

def COLOR_UP_RING : String := "#44AA66"

def COLOR_HOLD_BG : String := "#2A2200"

def COLOR_HOLD_TEXT : String := "#FFCC33"

def COLOR_HOLD_RING : String := "#FFAA00"

def COLOR_PRESS_ACCENT : String := "#66BBFF"

def COLOR_ROTATE_ACCENT : String := "#DDAA44"

def COLOR_TAP_ACCENT : String := "#66DD88"

def COLOR_HOLD_TAP_ACCENT : String := "#FF8844"

/-- Per-state key colors (`KEY_COLORS` record in the source). -/
structure KeyColorSpec where
  bg : String
  text : String
  ring : Option String
  ringWidth : Nat
deriving DecidableEq, Repr

/-- The `KEY_COLORS` lookup table. -/
def KEY_COLORS : VisualState → KeyColorSpec
  | .idle => ⟨COLOR_IDLE_BG, COLOR_IDLE_TEXT, none, 0⟩
  | .down => ⟨COLOR_DOWN_BG, COLOR_DOWN_TEXT, some COLOR_DOWN_RING, 2⟩
  | .hold => ⟨COLOR_HOLD_BG, COLOR_HOLD_TEXT, some COLOR_HOLD_RING, 2⟩
  | .up => ⟨COLOR_UP_BG, COLOR_UP_TEXT, some COLOR_UP_RING, 1⟩

/-- The `DIAL_ACCENT_COLORS` lookup table. -/
def DIAL_ACCENT_COLORS : DialInputType → String
  | .idle => COLOR_IDLE_TEXT
  | .press => COLOR_PRESS_ACCENT
  | .release => COLOR_PRESS_ACCENT
  | .rotate => COLOR_ROTATE_ACCENT
  | .tap => COLOR_TAP_ACCENT
  | .hold => COLOR_HOLD_TAP_ACCENT

/-! ### Utility functions (`formatSigned`, `clamp`, number printing) -/

/-- `formatSigned` from the source.  The modelled inputs are mathematical
integers, for which `Number.isFinite` is always true, so only the
`value === 0` and sign tests remain. -/
def formatSigned (value : Int) : String :=
  if value = 0 then "0"
  else if value > 0 then "+" ++ toString value
  else toString value

/-- `clamp(value, min, max) = Math.min(Math.max(value, min), max)`. -/
def clamp (value lo hi : ℚ) : ℚ :=
  min (max value lo) hi

/-- JavaScript `Math.round`: nearest integer, ties towards positive
infinity, i.e. `⌊x + 1/2⌋`. -/
def jsRound (q : ℚ) : Int :=
  Int.floor (q + (1 : ℚ) / 2)

/-- Decimal digits of a fraction in `[0, 1)`, most significant first, with
`fuel` bounding the length (JavaScript prints at most 17 significant
digits; trailing zeros never appear because expansion stops at 0). -/
def qFracDigits : Nat → ℚ → List Char
  | 0, _ => []
  | fuel + 1, q =>
      if q = 0 then []
      else
        let q10 := q * 10
        let d := (Int.floor q10).toNat
        Char.ofNat (48 + d) :: qFracDigits fuel (q10 - Int.floor q10)

/-- Decimal rendering of a non-negative rational. -/
def qToStringNonneg (q : ℚ) : String :=
  let ip := (Int.floor q).toNat
  let ds := qFracDigits 17 (q - Int.floor q)
  if ds.isEmpty then toString ip else toString ip ++ "." ++ String.mk ds

/-- Rendering of a JavaScript number interpolated into a template literal
(`` `${x}` ``).  Exact for the integers and terminating decimals the
plugin interpolates (sizes, opacities such as `0.03`, pixel positions). -/
def qToString (q : ℚ) : String :=
  if q < 0 then "-" ++ qToStringNonneg (-q) else qToStringNonneg q

/-- `Number.prototype.toFixed(1)` for a non-negative rational: one decimal
digit, ties rounding up in magnitude (ECMA-262 picks the larger candidate). -/
def qToFixed1Nonneg (q : ℚ) : String :=
  let n := (Int.floor (q * 10 + (1 : ℚ) / 2)).toNat
  toString (n / 10) ++ "." ++ toString (n % 10)

/-- `x.toFixed(1)`; ECMA-262 extracts the sign first. -/
def qToFixed1 (q : ℚ) : String :=
  if q < 0 then "-" ++ qToFixed1Nonneg (-q) else qToFixed1Nonneg q

/-! ### `escapeSvg` -/

/-- The apostrophe character (U+0027), written by code point to keep the
source free of bare quote characters. -/
def APOS : Char := Char.ofNat 39

/-- One global single-character regex replacement
(`value.replace(/c/g, repl)`): every occurrence of `target` is replaced by
`repl`, all other characters are kept. -/
def replaceChar (cs : List Char) (target : Char) (repl : List Char) : List Char :=
  cs.flatMap fun c => if c = target then repl else [c]

/-- The five chained `.replace` calls of `escapeSvg` on the character
list, `&` first so that the ampersands introduced by the later entities
are not re-escaped. -/
def escapeData (cs : List Char) : List Char :=
  replaceChar
    (replaceChar
      (replaceChar
        (replaceChar
          (replaceChar cs '&' "&amp;".data)
          '<' "&lt;".data)
        '>' "&gt;".data)
      '"' "&quot;".data)
    APOS "&apos;".data

/-- `escapeSvg` from the source. -/
def escapeSvg (value : String) : String :=
  String.mk (escapeData value.data)

/-- The five entity replacement strings. -/
def svgEntities : List (List Char) :=
  ["&amp;".data, "&lt;".data, "&gt;".data, "&quot;".data, "&apos;".data]

/-- Per-character description of the combined effect of the five replaces
(each replacement string is free of the characters targeted by the later
passes, so the chain acts independently on every source character). -/
def escChar (c : Char) : List Char :=
  if c = '&' then "&amp;".data
  else if c = '<' then "&lt;".data
  else if c = '>' then "&gt;".data
  else if c = '"' then "&quot;".data
  else if c = APOS then "&apos;".data
  else [c]

/-! ### JavaScript string trimming -/

/-- ASCII whitespace recognised by `String.prototype.trim` (the templates
only ever produce spaces and newlines at the ends). -/
def isJsWS (c : Char) : Bool :=
  c = ' ' ∨ c = '\t' ∨ c = '\n' ∨ c = '\r'

/-- `.trim()` on a template literal. -/
def jsTrim (s : String) : String :=
  String.mk (((s.data.dropWhile isJsWS).reverse.dropWhile isJsWS).reverse)

/-! ### SVG builders

The builders are pure functions of an options record, exactly as in the
source.  They are split as `jsTrim (prefix ++ escapeSvg label ++ suffix)`,
mirroring the single occurrence of `${safeLabel}` in each template
literal; every other interpolation lives in the prefix/suffix parts. -/

/-- The `counters` argument of `buildKeySvg`. -/
structure KeyCounters where
  down : Nat
  up : Nat
deriving DecidableEq, Repr

/-- The options record of `buildKeySvg`. -/
structure KeySvgOpts where
  label : String
  counters : KeyCounters
  state : VisualState
  holdSeconds : Option ℚ
  lastHoldSeconds : Option ℚ
deriving DecidableEq, Repr

/-- `bgMarkup` of `buildKeySvg` (checker pattern when idle, flat fill
otherwise). -/
def keyBgMarkup (state : VisualState) : String :=
  if state = .idle then
    "\n      <defs>\n        <pattern id=\"kc\" width=\"" ++ toString KEY_CHECKER_SIZE
      ++ "\" height=\"" ++ toString KEY_CHECKER_SIZE
      ++ "\" patternUnits=\"userSpaceOnUse\">\n          <rect width=\""
      ++ toString KEY_CHECKER_SIZE ++ "\" height=\"" ++ toString KEY_CHECKER_SIZE
      ++ "\" fill=\"" ++ COLOR_IDLE_BG ++ "\"/>\n          <rect width=\""
      ++ toString (KEY_CHECKER_SIZE / 2) ++ "\" height=\"" ++ toString (KEY_CHECKER_SIZE / 2)
      ++ "\" fill=\"#FFFFFF\" opacity=\"" ++ qToString KEY_CHECKER_OPACITY
      ++ "\"/>\n          <rect x=\"" ++ toString (KEY_CHECKER_SIZE / 2)
      ++ "\" y=\"" ++ toString (KEY_CHECKER_SIZE / 2)
      ++ "\" width=\"" ++ toString (KEY_CHECKER_SIZE / 2)
      ++ "\" height=\"" ++ toString (KEY_CHECKER_SIZE / 2)
      ++ "\" fill=\"#FFFFFF\" opacity=\"" ++ qToString KEY_CHECKER_OPACITY
      ++ "\"/>\n        </pattern>\n      </defs>\n      <rect width=\""
      ++ toString KEY_SIZE ++ "\" height=\"" ++ toString KEY_SIZE
      ++ "\" rx=\"" ++ toString KEY_RADIUS ++ "\" fill=\"url(#kc)\"/>"
  else
    "<rect width=\"" ++ toString KEY_SIZE ++ "\" height=\"" ++ toString KEY_SIZE
      ++ "\" rx=\"" ++ toString KEY_RADIUS ++ "\" fill=\"" ++ (KEY_COLORS state).bg ++ "\"/>"

/-- `ringMarkup` of `buildKeySvg`. -/
def keyRingMarkup (state : VisualState) : String :=
  match (KEY_COLORS state).ring with
  | some ring =>
      "<rect x=\"1\" y=\"1\" width=\"" ++ toString (KEY_SIZE - 2)
        ++ "\" height=\"" ++ toString (KEY_SIZE - 2)
        ++ "\" rx=\"" ++ toString KEY_RADIUS
        ++ "\" fill=\"none\" stroke=\"" ++ ring
        ++ "\" stroke-width=\"" ++ toString (KEY_COLORS state).ringWidth ++ "\"/>"
  | none => ""

/-- `centerContent` of `buildKeySvg`: live hold timer or last-hold
subtitle. -/
def keyCenterContent (o : KeySvgOpts) : String :=
  match o.state, o.holdSeconds, o.lastHoldSeconds with
  | .hold, some hs, _ =>
      "<text x=\"36\" y=\"" ++ toString KEY_HOLD_TIMER_Y
        ++ "\" text-anchor=\"middle\" font-family=\"" ++ FONT
        ++ "\" font-size=\"" ++ toString KEY_HOLD_TIMER_FONT_SIZE
        ++ "\" font-weight=\"700\" fill=\"" ++ (KEY_COLORS o.state).text
        ++ "\">" ++ qToFixed1 hs ++ "s</text>"
  | .up, _, some lh =>
      "<text x=\"36\" y=\"" ++ toString KEY_HOLD_SUBTITLE_Y
        ++ "\" text-anchor=\"middle\" font-family=\"" ++ FONT
        ++ "\" font-size=\"12\" font-weight=\"600\" fill=\"" ++ COLOR_UP_RING
        ++ "\">held " ++ qToFixed1 lh ++ "s</text>"
  | _, _, _ => ""

/-- `counterColor` of `buildKeySvg`. -/
def keyCounterColor (state : VisualState) : String :=
  if state = .idle then COLOR_IDLE_COUNTER else (KEY_COLORS state).text

/-- Template part of `buildKeySvg` before `${safeLabel}`. -/
def keyRawPre (o : KeySvgOpts) : String :=
  "\n    <svg xmlns=\"http://www.w3.org/2000/svg\" width=\"" ++ toString KEY_SIZE
    ++ "\" height=\"" ++ toString KEY_SIZE
    ++ "\" viewBox=\"0 0 " ++ toString KEY_SIZE ++ " " ++ toString KEY_SIZE
    ++ "\">\n      " ++ keyBgMarkup o.state
    ++ "\n      " ++ keyRingMarkup o.state
    ++ "\n      <text x=\"36\" y=\"" ++ toString KEY_LABEL_Y
    ++ "\" text-anchor=\"middle\" font-family=\"" ++ FONT
    ++ "\" font-size=\"" ++ toString KEY_LABEL_FONT_SIZE
    ++ "\" font-weight=\"700\" fill=\"" ++ (KEY_COLORS o.state).text ++ "\">"

/-- Template part of `buildKeySvg` after `${safeLabel}`. -/
def keyRawPost (o : KeySvgOpts) : String :=
  "</text>\n      " ++ keyCenterContent o
    ++ "\n      <text x=\"6\" y=\"" ++ toString KEY_COUNTER_Y
    ++ "\" font-family=\"" ++ MONO_FONT
    ++ "\" font-size=\"" ++ toString KEY_COUNTER_FONT_SIZE
    ++ "\" font-weight=\"600\" fill=\"" ++ keyCounterColor o.state
    ++ "\">D:" ++ toString o.counters.down
    ++ "</text>\n      <text x=\"66\" y=\"" ++ toString KEY_COUNTER_Y
    ++ "\" text-anchor=\"end\" font-family=\"" ++ MONO_FONT
    ++ "\" font-size=\"" ++ toString KEY_COUNTER_FONT_SIZE
    ++ "\" font-weight=\"600\" fill=\"" ++ keyCounterColor o.state
    ++ "\">U:" ++ toString o.counters.up
    ++ "</text>\n    </svg>\n  "

/-- `buildKeySvg`: the 72×72 key image. -/
def buildKeySvg (o : KeySvgOpts) : String :=
  jsTrim (keyRawPre o ++ escapeSvg o.label ++ keyRawPost o)

/-- The `counters` argument of `buildDialSvg`. -/
structure DialCounters where
  presses : Nat
  rotates : Nat
  touches : Nat
deriving DecidableEq, Repr

/-- The `dot` argument of `buildDialSvg`. -/
structure TapDot where
  x : ℚ
  y : ℚ
  isHold : Bool
deriving DecidableEq, Repr

/-- The options record of `buildDialSvg`. -/
structure DialSvgOpts where
  label : String
  counters : DialCounters
  dot : Option TapDot
  patternOffsetX : ℚ
  inputType : DialInputType
deriving DecidableEq, Repr

/-- `accentBar` of `buildDialSvg`. -/
def dialAccentBar (inputType : DialInputType) : String :=
  if inputType ≠ .idle then
    "<rect x=\"0\" y=\"0\" width=\"" ++ toString DIAL_ACCENT_BAR_W
      ++ "\" height=\"" ++ toString TOUCH_CANVAS_HEIGHT
      ++ "\" fill=\"" ++ DIAL_ACCENT_COLORS inputType ++ "\" opacity=\"0.8\"/>"
  else ""

/-- `dotMarkup` of `buildDialSvg`. -/
def dialDotMarkup (dot : Option TapDot) : String :=
  match dot with
  | some d =>
      let dotColor := if d.isHold then COLOR_HOLD_TAP_ACCENT else COLOR_TAP_ACCENT
      "\n      <circle cx=\"" ++ qToString d.x ++ "\" cy=\"" ++ qToString d.y
        ++ "\" r=\"" ++ toString TOUCH_DOT_GLOW_RADIUS
        ++ "\" fill=\"none\" stroke=\"" ++ dotColor
        ++ "\" stroke-width=\"1\" opacity=\"0.4\"/>\n      <circle cx=\""
        ++ qToString d.x ++ "\" cy=\"" ++ qToString d.y
        ++ "\" r=\"" ++ toString TOUCH_DOT_RADIUS
        ++ "\" fill=\"" ++ dotColor ++ "\"/>"
  | none => ""

/-- `counterBgOpacity` local constant of `buildDialSvg`. -/
def dialCounterBgOpacity : ℚ := 0.4

/-- `colW = Math.floor(TOUCH_CANVAS_WIDTH / 3)`. -/
def dialColW : Nat := TOUCH_CANVAS_WIDTH / 3

/-- Template part of `buildDialSvg` before `${safeLabel}`. -/
def dialRawPre (o : DialSvgOpts) : String :=
  "\n    <svg xmlns=\"http://www.w3.org/2000/svg\" width=\"" ++ toString TOUCH_CANVAS_WIDTH
    ++ "\" height=\"" ++ toString TOUCH_CANVAS_HEIGHT
    ++ "\" viewBox=\"0 0 " ++ toString TOUCH_CANVAS_WIDTH ++ " " ++ toString TOUCH_CANVAS_HEIGHT
    ++ "\">\n      <defs>\n        <pattern id=\"checker\" width=\"" ++ toString DIAL_CHECKER_SIZE
    ++ "\" height=\"" ++ toString DIAL_CHECKER_SIZE
    ++ "\" patternUnits=\"userSpaceOnUse\" patternTransform=\"translate(-"
    ++ qToString o.patternOffsetX
    ++ " 0)\">\n          <rect width=\"" ++ toString DIAL_CHECKER_SIZE
    ++ "\" height=\"" ++ toString DIAL_CHECKER_SIZE
    ++ "\" fill=\"" ++ COLOR_IDLE_BG ++ "\"/>\n          <rect width=\""
    ++ toString (DIAL_CHECKER_SIZE / 2) ++ "\" height=\"" ++ toString (DIAL_CHECKER_SIZE / 2)
    ++ "\" fill=\"#FFFFFF\" opacity=\"" ++ qToString DIAL_CHECKER_OPACITY
    ++ "\"/>\n          <rect x=\"" ++ toString (DIAL_CHECKER_SIZE / 2)
    ++ "\" y=\"" ++ toString (DIAL_CHECKER_SIZE / 2)
    ++ "\" width=\"" ++ toString (DIAL_CHECKER_SIZE / 2)
    ++ "\" height=\"" ++ toString (DIAL_CHECKER_SIZE / 2)
    ++ "\" fill=\"#FFFFFF\" opacity=\"" ++ qToString DIAL_CHECKER_OPACITY
    ++ "\"/>\n        </pattern>\n      </defs>\n      <rect width=\""
    ++ toString TOUCH_CANVAS_WIDTH ++ "\" height=\"" ++ toString TOUCH_CANVAS_HEIGHT
    ++ "\" fill=\"url(#checker)\"/>\n      " ++ dialAccentBar o.inputType
    ++ "\n      <text x=\"" ++ toString DIAL_LABEL_X
    ++ "\" y=\"" ++ toString DIAL_LABEL_Y
    ++ "\" font-family=\"" ++ FONT
    ++ "\" font-size=\"" ++ toString DIAL_LABEL_SIZE
    ++ "\" font-weight=\"700\" fill=\"" ++ DIAL_ACCENT_COLORS o.inputType ++ "\">"

/-- Template part of `buildDialSvg` after `${safeLabel}`. -/
def dialRawPost (o : DialSvgOpts) : String :=
  "</text>\n      " ++ dialDotMarkup o.dot
    ++ "\n      <rect x=\"0\" y=\"70\" width=\"" ++ toString dialColW
    ++ "\" height=\"30\" fill=\"#1A3A5C\" opacity=\"" ++ qToString dialCounterBgOpacity
    ++ "\"/>\n      <rect x=\"" ++ toString dialColW
    ++ "\" y=\"70\" width=\"" ++ toString dialColW
    ++ "\" height=\"30\" fill=\"#2A2200\" opacity=\"" ++ qToString dialCounterBgOpacity
    ++ "\"/>\n      <rect x=\"" ++ toString (dialColW * 2)
    ++ "\" y=\"70\" width=\"" ++ toString (TOUCH_CANVAS_WIDTH - dialColW * 2)
    ++ "\" height=\"30\" fill=\"#1A2E1A\" opacity=\"" ++ qToString dialCounterBgOpacity
    ++ "\"/>\n      <text x=\"" ++ toString (dialColW / 2)
    ++ "\" y=\"" ++ toString DIAL_COUNTER_Y
    ++ "\" text-anchor=\"middle\" font-family=\"" ++ MONO_FONT
    ++ "\" font-size=\"" ++ toString DIAL_COUNTER_SIZE
    ++ "\" font-weight=\"600\" fill=\"" ++ COLOR_PRESS_ACCENT
    ++ "\">P:" ++ toString o.counters.presses
    ++ "</text>\n      <text x=\"" ++ toString (dialColW + dialColW / 2)
    ++ "\" y=\"" ++ toString DIAL_COUNTER_Y
    ++ "\" text-anchor=\"middle\" font-family=\"" ++ MONO_FONT
    ++ "\" font-size=\"" ++ toString DIAL_COUNTER_SIZE
    ++ "\" font-weight=\"600\" fill=\"" ++ COLOR_ROTATE_ACCENT
    ++ "\">R:" ++ toString o.counters.rotates
    ++ "</text>\n      <text x=\"" ++ toString (dialColW * 2 + (TOUCH_CANVAS_WIDTH - dialColW * 2) / 2)
    ++ "\" y=\"" ++ toString DIAL_COUNTER_Y
    ++ "\" text-anchor=\"middle\" font-family=\"" ++ MONO_FONT
    ++ "\" font-size=\"" ++ toString DIAL_COUNTER_SIZE
    ++ "\" font-weight=\"600\" fill=\"" ++ COLOR_TAP_ACCENT
    ++ "\">T:" ++ toString o.counters.touches
    ++ "</text>\n    </svg>\n  "

/-- `buildDialSvg`: the 200×100 dial/touch-strip image. -/
def buildDialSvg (o : DialSvgOpts) : String :=
  jsTrim (dialRawPre o ++ escapeSvg o.label ++ dialRawPost o)

/-! ### Per-control state (`KeyState`, `DialState`)

Timer handles (`ReturnType<typeof setInterval>` etc.) are modelled as the
numeric ids of entries in a global queue of outstanding timers; ids start
at 1 and are never reused, like Node.js `Timeout` objects, which are
always truthy. -/

/-- `type KeyState` from the source. -/
structure KeyState where
  down : Nat
  up : Nat
  holdStartedAt : Option Nat
  holdTimerRef : Option Nat
  lastHoldDuration : Option Nat
  upFlashTimer : Option Nat
deriving DecidableEq, Repr

/-- `type DialState` from the source. -/
structure DialState where
  presses : Nat
  rotates : Nat
  touches : Nat
  netTicks : Int
  lastTicks : Int
  dotX : ℚ
  dotY : ℚ
  hasDot : Bool
  segmentOffsetX : ℚ
  lastRenderAt : Nat
  pendingLabel : Option String
  renderTimer : Option Nat
  lastInputType : DialInputType
  lastRotateDirection : Int
deriving DecidableEq, Repr

/-- One entry of the `keyTimers` tracking map
(`{ hold: ... | null; flash: ... | null }`). -/
structure KeyTimersEntry where
  hold : Option Nat
  flash : Option Nat
deriving DecidableEq, Repr

/-- Kind of an outstanding JavaScript timer, with the data its callback
closure captured by value.  The dial flush closure captures the `label`
argument of the `renderDial` call that created it, used as the `??`
fallback. -/
inductive TimerKind where
  | keyHold
  | keyFlash
  | dialFlush (fallback : String)
deriving DecidableEq, Repr

/-- An outstanding timer: id (handle), owning action id, absolute due time
in ms, and callback kind.  `setInterval` timers are re-armed (`due + 100`)
each time they fire. -/
structure Timer where
  tid : Nat
  owner : String
  due : Nat
  kind : TimerKind
deriving DecidableEq, Repr

/-- An outbound render call, recorded with the argument record handed to
the SVG builder.  The actual payload transmitted by the source is the
deterministic image `svgToDataUri (buildKeySvg opts)` (resp.
`buildDialSvg`), a pure function of the recorded data. -/
inductive RenderCall where
  | setImage (owner : String) (time : Nat) (opts : KeySvgOpts)
  | setFeedback (owner : String) (time : Nat) (opts : DialSvgOpts)
deriving DecidableEq, Repr

/-- Action id targeted by a render call. -/
def RenderCall.owner : RenderCall → String
  | .setImage i _ _ => i
  | .setFeedback i _ _ => i

/-! ### Association-list maps

`keyStates` / `dialStates` are `WeakMap`s keyed by the per-control action
object and `keyTimers` a `Map` keyed by the action id string; under the
stable-identity assumption of the spec both become maps from the action id
to the state record.  Entries are never garbage collected inside a run. -/

/-- Lookup in an association list. -/
def alistGet {α : Type} (k : String) : List (String × α) → Option α
  | [] => none
  | p :: r => if p.1 = k then some p.2 else alistGet k r

/-- Insert or replace in an association list. -/
def alistSet {α : Type} (k : String) (v : α) : List (String × α) → List (String × α)
  | [] => [(k, v)]
  | p :: r => if p.1 = k then (k, v) :: r else p :: alistSet k v r

/-- Remove from an association list (`Map.delete`). -/
def alistRemove {α : Type} (k : String) : List (String × α) → List (String × α)
  | [] => []
  | p :: r => if p.1 = k then r else p :: alistRemove k r

/-- JavaScript truthiness of a nullable timestamp: `null` and `0` are
falsy (`state.holdStartedAt ?`-style tests in the source). -/
def truthyTime : Option Nat → Bool
  | none => false
  | some n => n != 0

/-- Cancel a timer handle (`clearInterval` / `clearTimeout`): removes the
pending timer with that id, a no-op for `null` handles and for timers that
already fired or were already cancelled. -/
def cancelTimer (h : Option Nat) (pend : List Timer) : List Timer :=
  match h with
  | none => pend
  | some t => pend.filter fun tm => tm.tid ≠ t

/-! ### The system state -/

/-- Whole-program state: wall clock, the three maps of
`InputTesterAction`, the queue of outstanding timers, the next fresh timer
id, the trace of outbound render calls, and a ghost log of `renderDial`
requests `(id, label, time)` used only for observation. -/
structure Sys where
  now : Nat
  keys : List (String × KeyState)
  dials : List (String × DialState)
  keyTimers : List (String × KeyTimersEntry)
  pending : List Timer
  nextTid : Nat
  trace : List RenderCall
  requests : List (String × String × Nat)
deriving DecidableEq, Repr

/-- The state at plugin start: empty maps, no timers, no output. -/
def Sys.init : Sys :=
  ⟨0, [], [], [], [], 1, [], []⟩

/-- The fresh record created by `getKeyState`. -/
def freshKeyState : KeyState :=
  ⟨0, 0, none, none, none, none⟩

/-- The fresh record created by `getDialState`. -/
def freshDialState : DialState :=
  ⟨0, 0, 0, 0, 0, 0, 0, false, 0, 0, none, none, .idle, 0⟩

/-- Store a key state record (object mutation made explicit). -/
def Sys.setKey (s : Sys) (id : String) (st : KeyState) : Sys :=
  { s with keys := alistSet id st s.keys }

/-- Store a dial state record. -/
def Sys.setDial (s : Sys) (id : String) (st : DialState) : Sys :=
  { s with dials := alistSet id st s.dials }

/-- `getKeyState`: return the existing record or create a fresh one.
The source's `keyStates` is a `WeakMap` keyed by the action object;
within one visibility period the object is fixed, so an id-keyed entry
mirrors it exactly.  `getKeyState` is called by the mid-lifetime key
handlers (`keyDown`/`keyUp`), whose events only arrive while the key is
visible and its record exists. -/
def Sys.getKeyState (s : Sys) (id : String) : KeyState × Sys :=
  match alistGet id s.keys with
  | some st => (st, s)
  | none => (freshKeyState, s.setKey id freshKeyState)

/-- `getDialState`: return the existing record or create a fresh one.
Like `keyStates`, the source's `dialStates` is a `WeakMap` keyed by the
per-appearance action object; this helper serves the mid-lifetime dial
handlers (`dialDown`/`dialUp`/`dialRotate`/`touchTap`), whose events only
arrive during a visibility period, when the id-keyed entry installed by
`onWillAppear` coincides with the object-keyed `WeakMap` entry. -/
def Sys.getDialState (s : Sys) (id : String) : DialState × Sys :=
  match alistGet id s.dials with
  | some st => (st, s)
  | none => (freshDialState, s.setDial id freshDialState)

/-- Observation helper: the key state recorded for `id` (fresh if the key
was never observed). -/
def keyStateOf (s : Sys) (id : String) : KeyState :=
  (alistGet id s.keys).getD freshKeyState

/-- Observation helper: the dial state recorded for `id`. -/
def dialStateOf (s : Sys) (id : String) : DialState :=
  (alistGet id s.dials).getD freshDialState

/-! ### Rendering -/

/-- `renderKey`: derive the label and the `holdSeconds` /
`lastHoldSeconds` arguments from the visual state and emit `setImage`.
The `setTitle("")` call made alongside carries no state and is not
recorded.  The source guards `state.holdStartedAt` with JavaScript
truthiness, modelled by `truthyTime`. -/
def Sys.renderKey (s : Sys) (id : String) (visualState : VisualState) (st : KeyState) : Sys :=
  let label : String :=
    match visualState with
    | .idle => "READY"
    | .down => "DOWN"
    | .hold => "HOLD"
    | .up => "UP"
  let holdSeconds : Option ℚ :=
    if visualState = .hold then
      if truthyTime st.holdStartedAt then
        some (((s.now : ℚ) - (st.holdStartedAt.getD 0 : ℚ)) / 1000)
      else
        match st.lastHoldDuration with
        | some d => some ((d : ℚ) / 1000)
        | none => none
    else none
  let lastHoldSeconds : Option ℚ :=
    match visualState, st.lastHoldDuration with
    | .up, some d => if d ≥ KEY_HOLD_THRESHOLD_MS then some ((d : ℚ) / 1000) else none
    | _, _ => none
  { s with trace := s.trace ++
      [.setImage id s.now ⟨label, ⟨st.down, st.up⟩, visualState, holdSeconds, lastHoldSeconds⟩] }

/-- The options record `renderDialNow` builds for `buildDialSvg`. -/
def dialDrawOpts (label : String) (st : DialState) : DialSvgOpts :=
  let dot : Option TapDot :=
    if st.hasDot then some ⟨st.dotX, st.dotY, st.lastInputType = .hold⟩ else none
  ⟨label, ⟨st.presses, st.rotates, st.touches⟩, dot, st.segmentOffsetX, st.lastInputType⟩

/-- `renderDialNow`: emit `setFeedback` and stamp `lastRenderAt`. -/
def Sys.renderDialNow (s : Sys) (id : String) (label : String) (st : DialState) : Sys :=
  let s := { s with trace := s.trace ++ ([.setFeedback id s.now (dialDrawOpts label st)] : List RenderCall) }
  s.setDial id { st with lastRenderAt := s.now }

/-- `renderDial(action, label, state)`: the leading+trailing-edge 16 ms
render throttle.  As in the source, the current state record is an
argument (the callers pass the record they just stored under `id`); the
ghost `requests` log records every call. -/
def Sys.renderDial (s : Sys) (id : String) (label : String) (st : DialState) : Sys :=
  let s := { s with requests := s.requests ++ [(id, label, s.now)] }
  let elapsed := s.now - st.lastRenderAt
  if elapsed ≥ DIAL_RENDER_INTERVAL_MS ∧ st.renderTimer = none then
    s.renderDialNow id label st
  else
    let st := { st with pendingLabel := some label }
    if st.renderTimer.isSome then
      s.setDial id st
    else
      let delay := max 0 (DIAL_RENDER_INTERVAL_MS - elapsed)
      let tid := s.nextTid
      let st := { st with renderTimer := some tid }
      let s := s.setDial id st
      { s with pending := s.pending ++ ([⟨tid, id, s.now + delay, .dialFlush label⟩] : List Timer),
               nextTid := tid + 1 }

/-! ### Key timer management and event handlers -/

/-- `clearKeyTimers`: cancel and null the state's own handles, then cancel
and drop the tracked `keyTimers` entry.  (The source's `if` guards around
`clearInterval`/`clearTimeout` are no-ops when the handle is already
`null`, so cancelling unconditionally is the same function.) -/
def Sys.clearKeyTimers (s : Sys) (id : String) (st : KeyState) : KeyState × Sys :=
  let s := { s with pending := cancelTimer st.holdTimerRef s.pending }
  let st := { st with holdTimerRef := none }
  let s := { s with pending := cancelTimer st.upFlashTimer s.pending }
  let st := { st with upFlashTimer := none }
  match alistGet id s.keyTimers with
  | some tr =>
      let s := { s with pending := cancelTimer tr.hold s.pending }
      let s := { s with pending := cancelTimer tr.flash s.pending }
      (st, { s with keyTimers := alistRemove id s.keyTimers })
  | none => (st, s)

/-- `onKeyDown`: cancel outstanding timers, bump the counter, start the
hold clock, render `down`, and start the 100 ms hold-tick interval
(tracked both in the state and in `keyTimers`). -/
def Sys.onKeyDown (s : Sys) (id : String) : Sys :=
  let g := s.getKeyState id
  let c := g.2.clearKeyTimers id g.1
  let st := c.1
  let s := c.2
  let st := { st with down := st.down + 1, holdStartedAt := some s.now, lastHoldDuration := none }
  let s := s.setKey id st
  let s := s.renderKey id .down st
  let tid := s.nextTid
  let st := { st with holdTimerRef := some tid }
  let s := s.setKey id st
  let s := { s with pending := s.pending ++ ([⟨tid, id, s.now + KEY_HOLD_TIMER_INTERVAL_MS, .keyHold⟩] : List Timer),
                    nextTid := tid + 1 }
  { s with keyTimers := alistSet id (⟨some tid, none⟩ : KeyTimersEntry) s.keyTimers }

/-- `onKeyUp`: compute the held duration (0 when `holdStartedAt` is
null/falsy), stop the hold interval (in the state and in the tracked
entry), bump the counter, then either render a sticky `hold` (≥ 500 ms, no
further timer) or render `up` and schedule the 2000 ms revert-to-idle
flash timer.  The final tracked-entry update mirrors
`tracked.flash = flashTimer` on the entry object fetched earlier, which in
this branch is still the entry currently in the map. -/
def Sys.onKeyUp (s : Sys) (id : String) : Sys :=
  let g := s.getKeyState id
  let st := g.1
  let s := g.2
  let holdDuration := if truthyTime st.holdStartedAt then s.now - st.holdStartedAt.getD 0 else 0
  let st := { st with lastHoldDuration := some holdDuration, holdStartedAt := none }
  let s := { s with pending := cancelTimer st.holdTimerRef s.pending }
  let st := { st with holdTimerRef := none }
  let tracked := alistGet id s.keyTimers
  let s :=
    match tracked with
    | some tr =>
        { s with pending := cancelTimer tr.hold s.pending,
                 keyTimers := alistSet id { tr with hold := none } s.keyTimers }
    | none => s
  let st := { st with up := st.up + 1 }
  let s := s.setKey id st
  if holdDuration ≥ KEY_HOLD_THRESHOLD_MS then
    let s := s.renderKey id .hold st
    { s with keyTimers := alistRemove id s.keyTimers }
  else
    let s := s.renderKey id .up st
    let s := { s with pending := cancelTimer st.upFlashTimer s.pending }
    let tid := s.nextTid
    let st := { st with upFlashTimer := some tid }
    let s := s.setKey id st
    let s := { s with pending := s.pending ++ ([⟨tid, id, s.now + KEY_UP_FLASH_MS, .keyFlash⟩] : List Timer),
                      nextTid := tid + 1 }
    match alistGet id s.keyTimers with
    | some tr => { s with keyTimers := alistSet id { tr with flash := some tid } s.keyTimers }
    | none => { s with keyTimers := alistSet id (⟨none, some tid⟩ : KeyTimersEntry) s.keyTimers }

/-- `onWillAppear`: keys render `idle`; dials get their column-derived
background offset, no stale dot, an idle accent, and a `"READY"` render
request.  The `dialStates` `WeakMap` is keyed by the action *object*, and
the dispatch layer hands a new object for each appearance, so the
`getDialState(ev.action)` call here necessarily misses and creates a
fresh record: the embedding installs `freshDialState` directly before
applying the three field assignments the handler performs.
(`setFeedbackLayout` and `setTriggerDescription` are non-render outbound
calls and carry no state.) -/
def Sys.onWillAppear (s : Sys) (id : String) (isKey : Bool) (column : Nat) : Sys :=
  if isKey then
    let g := s.getKeyState id
    g.2.renderKey id .idle g.1
  else
    let st := freshDialState
    let st := { st with segmentOffsetX := (column : ℚ) * (TOUCH_CANVAS_WIDTH : ℚ),
                        hasDot := false, lastInputType := .idle }
    let s := s.setDial id st
    s.renderDial id "READY" st

/-- `onWillDisappear`: cancel and drop the tracked key timers, cancel a
pending dial render flush.  The handler drops no state record itself; in
the source the record dies with its action object (the `WeakMap` entry
becomes unreachable once the control is not live).  The embedding leaves
the id-keyed entry in place, which is unobservable: a not-visible
identity receives no events, and the next `willAppear` installs a fresh
record rather than reading the stale one. -/
def Sys.onWillDisappear (s : Sys) (id : String) : Sys :=
  let s :=
    match alistGet id s.keyTimers with
    | some tr =>
        let s := { s with pending := cancelTimer tr.hold s.pending }
        let s := { s with pending := cancelTimer tr.flash s.pending }
        { s with keyTimers := alistRemove id s.keyTimers }
    | none => s
  match alistGet id s.dials with
  | some dst =>
      if dst.renderTimer.isSome then
        { s with pending := cancelTimer dst.renderTimer s.pending,
                 dials := alistSet id { dst with renderTimer := none } s.dials }
      else s
  | none => s

/-- `onDialDown`. -/
def Sys.onDialDown (s : Sys) (id : String) : Sys :=
  let g := s.getDialState id
  let st := g.1
  let s := g.2
  let st := { st with presses := st.presses + 1, lastInputType := .press }
  let s := s.setDial id st
  s.renderDial id "PRESS" st

/-- `onDialUp`. -/
def Sys.onDialUp (s : Sys) (id : String) : Sys :=
  let g := s.getDialState id
  let st := g.1
  let s := g.2
  let st := { st with lastInputType := .release }
  let s := s.setDial id st
  s.renderDial id "RELEASE" st

/-- `onDialRotate`: accumulate magnitude and signed net, request a render
whose label shows the new signed net. -/
def Sys.onDialRotate (s : Sys) (id : String) (ticks : Int) : Sys :=
  let g := s.getDialState id
  let st := g.1
  let s := g.2
  let st := { st with rotates := st.rotates + ticks.natAbs,
                      netTicks := st.netTicks + ticks,
                      lastTicks := ticks,
                      lastRotateDirection := Int.sign ticks,
                      lastInputType := .rotate }
  let s := s.setDial id st
  s.renderDial id ("ROT " ++ formatSigned st.netTicks) st

/-- `onTouchTap`: scale-or-passthrough the raw coordinates (≤ 1 means a
normalized fraction), clamp the dot inside the canvas, and request a
render labelled with the rounded raw coordinates. -/
def Sys.onTouchTap (s : Sys) (id : String) (rawX rawY : ℚ) (hold : Bool) : Sys :=
  let g := s.getDialState id
  let st := g.1
  let s := g.2
  let st := { st with touches := st.touches + 1 }
  let x := jsRound rawX
  let y := jsRound rawY
  let normX := if rawX ≤ 1 then rawX * (TOUCH_CANVAS_WIDTH : ℚ) else rawX
  let normY := if rawY ≤ 1 then rawY * (TOUCH_CANVAS_HEIGHT : ℚ) else rawY
  let left := clamp (normX - (TOUCH_DOT_RADIUS : ℚ)) 0
    ((TOUCH_CANVAS_WIDTH : ℚ) - (TOUCH_DOT_RADIUS : ℚ) * 2)
  let top := clamp (normY - (TOUCH_DOT_RADIUS : ℚ)) 0
    ((TOUCH_CANVAS_HEIGHT : ℚ) - (TOUCH_DOT_RADIUS : ℚ) * 2)
  let st := { st with dotX := left + (TOUCH_DOT_RADIUS : ℚ),
                      dotY := top + (TOUCH_DOT_RADIUS : ℚ),
                      hasDot := true,
                      lastInputType := if hold then .hold else .tap }
  let s := s.setDial id st
  let label := if hold then "HOLD" else "TAP"
  s.renderDial id (label ++ " " ++ toString x ++ "," ++ toString y) st

/-! ### Timer firing and the step relation -/

/-- Run the callback of an outstanding timer at its due time.  The wall
clock advances to the due time; the timer leaves the queue (an interval
immediately re-arms itself 100 ms later with the same handle).  The
closures captured the state object and action; both are recovered from
the maps, which never drop state records. -/
def Sys.fireTimer (s : Sys) (t : Timer) : Sys :=
  let s := { s with now := t.due, pending := s.pending.filter fun tm => tm.tid ≠ t.tid }
  match t.kind with
  | .keyHold =>
      let s := { s with pending := s.pending ++ [{ t with due := t.due + KEY_HOLD_TIMER_INTERVAL_MS }] }
      match alistGet t.owner s.keys with
      | some st =>
          if truthyTime st.holdStartedAt then
            let elapsed := s.now - st.holdStartedAt.getD 0
            if elapsed ≥ KEY_HOLD_THRESHOLD_MS then s.renderKey t.owner .hold st else s
          else s
      | none => s
  | .keyFlash =>
      match alistGet t.owner s.keys with
      | some st =>
          let st := { st with upFlashTimer := none }
          let s := s.setKey t.owner st
          let s := s.renderKey t.owner .idle st
          { s with keyTimers := alistRemove t.owner s.keyTimers }
      | none => s
  | .dialFlush fallback =>
      match alistGet t.owner s.dials with
      | some st =>
          let st := { st with renderTimer := none }
          let nextLabel := st.pendingLabel.getD fallback
          let st := { st with pendingLabel := none }
          let s := s.setDial t.owner st
          s.renderDialNow t.owner nextLabel st
      | none => s

/-- One step of a run: an inbound hardware event delivered at an absolute
time, or the firing of an outstanding timer (a no-op if the handle no
longer names an outstanding timer). -/
inductive Act where
  | appear (id : String) (isKey : Bool) (column : Nat) (t : Nat)
  | disappear (id : String) (t : Nat)
  | keyDown (id : String) (t : Nat)
  | keyUp (id : String) (t : Nat)
  | dialDown (id : String) (t : Nat)
  | dialUp (id : String) (t : Nat)
  | dialRotate (id : String) (ticks : Int) (t : Nat)
  | touchTap (id : String) (x y : ℚ) (hold : Bool) (t : Nat)
  | fire (tid : Nat)
deriving DecidableEq, Repr

/-- Dispatch one action. -/
def Sys.step (s : Sys) (a : Act) : Sys :=
  match a with
  | .appear id k c t => Sys.onWillAppear { s with now := t } id k c
  | .disappear id t => Sys.onWillDisappear { s with now := t } id
  | .keyDown id t => Sys.onKeyDown { s with now := t } id
  | .keyUp id t => Sys.onKeyUp { s with now := t } id
  | .dialDown id t => Sys.onDialDown { s with now := t } id
  | .dialUp id t => Sys.onDialUp { s with now := t } id
  | .dialRotate id k t => Sys.onDialRotate { s with now := t } id k
  | .touchTap id x y h t => Sys.onTouchTap { s with now := t } id x y h
  | .fire tid =>
      match s.pending.find? (fun tm => tm.tid == tid) with
      | some tm => s.fireTimer tm
      | none => s

/-- A run: fold the step function over a list of actions. -/
def Sys.steps (s : Sys) (l : List Act) : Sys :=
  l.foldl Sys.step s

/-- The event-target id of an action (`none` for timer firings). -/
def Act.eventId : Act → Option String
  | .appear id _ _ _ => some id
  | .disappear id _ => some id
  | .keyDown id _ => some id
  | .keyUp id _ => some id
  | .dialDown id _ => some id
  | .dialUp id _ => some id
  | .dialRotate id _ _ => some id
  | .touchTap id _ _ _ _ => some id
  | .fire _ => none

/-! ### Observation helpers used by the statements -/

/-- Projection of a `DialState` onto the fields that the render throttle
never writes. -/
def dialCore (d : DialState) :=
  (d.presses, d.rotates, d.touches, d.netTicks, d.lastTicks, d.dotX, d.dotY,
   d.hasDot, d.segmentOffsetX, d.lastInputType, d.lastRotateDirection)

/-- The held duration `onKeyUp` computes (`0` for a null/falsy
`holdStartedAt`). -/
def keyUpHeld (s : Sys) (id : String) : Nat :=
  if truthyTime (keyStateOf s id).holdStartedAt
  then s.now - (keyStateOf s id).holdStartedAt.getD 0 else 0

/-- Number of `keyDown` events for `id` in an action list. -/
def countKeyDown (id : String) : List Act → Nat
  | [] => 0
  | .keyDown i _ :: r => (if i = id then 1 else 0) + countKeyDown id r
  | _ :: r => countKeyDown id r

/-- Number of `keyUp` events for `id` in an action list. -/
def countKeyUp (id : String) : List Act → Nat
  | [] => 0
  | .keyUp i _ :: r => (if i = id then 1 else 0) + countKeyUp id r
  | _ :: r => countKeyUp id r

/-- A pure sequence of `dialRotate` events for one identity, with their
delivery times. -/
def rotateActs (id : String) : List (Int × Nat) → List Act
  | [] => []
  | p :: r => Act.dialRotate id p.1 p.2 :: rotateActs id r

/-- Sum of the absolute tick deltas of a rotate sequence. -/
def ticksAbsSum : List (Int × Nat) → Nat
  | [] => 0
  | p :: r => p.1.natAbs + ticksAbsSum r

/-- Signed sum of the tick deltas of a rotate sequence. -/
def ticksSum : List (Int × Nat) → Int
  | [] => 0
  | p :: r => p.1 + ticksSum r

/-- The render requests a rotate sequence generates, given the running
net before the sequence. -/
def rotateRequests (id : String) (net : Int) : List (Int × Nat) → List (String × String × Nat)
  | [] => []
  | p :: r => (id, "ROT " ++ formatSigned (net + p.1), p.2) :: rotateRequests id (net + p.1) r

/-- Identity, time and label of a render call (drops the numeric image
geometry, so runs can be compared by kernel evaluation). -/
def renderSummary : RenderCall → String × Nat × String
  | .setImage i t o => (i, t, o.label)
  | .setFeedback i t o => (i, t, o.label)

/-- The `presses` counter displayed by a dial render call. -/
def renderPresses : RenderCall → Option Nat
  | .setImage _ _ _ => none
  | .setFeedback _ _ o => some o.counters.presses

/-- Decidable check that every outstanding timer owned by `id` is
reachable through the cancellation bookkeeping the removal handler
consults: key timers through the `keyTimers` entry, a dial flush through
`renderTimer`.  This is the discipline the handlers maintain for every
identity. -/
def trackedForId (id : String) (s : Sys) : Bool :=
  s.pending.all fun tm =>
    if tm.owner = id then
      match tm.kind with
      | .keyHold =>
          match alistGet id s.keyTimers with
          | some e => e.hold == some tm.tid
          | none => false
      | .keyFlash =>
          match alistGet id s.keyTimers with
          | some e => e.flash == some tm.tid
          | none => false
      | .dialFlush _ =>
          match alistGet id s.dials with
          | some d => d.renderTimer == some tm.tid
          | none => false
    else true

/-- One transition adds outstanding timers and render calls only on
behalf of a single identity `i`: every new pending timer is owned by `i`
and carries the single permitted id `allowed`, the timer-id counter never
decreases, and the trace grows by renders targeting `i` only. -/
def StepAdds (s s' : Sys) (i : String) (allowed : Nat) : Prop :=
  (∀ tm ∈ s'.pending, tm ∈ s.pending ∨ (tm.owner = i ∧ tm.tid = allowed))
  ∧ s.nextTid ≤ s'.nextTid
  ∧ ∃ ext, s'.trace = s.trace ++ ext ∧ ∀ c ∈ ext, RenderCall.owner c = i

/-! ## Basic lemmas about the association-list maps -/

@[simp]
theorem alistGet_set_self {α : Type} (k : String) (v : α) (l : List (String × α)) :
    alistGet k (alistSet k v l) = some v := by
  induction l with
  | nil => simp [alistGet, alistSet]
  | cons p r ih =>
      by_cases h : p.1 = k
      · simp [alistGet, alistSet, h]
      · simp [alistGet, alistSet, h, ih]

@[simp]
theorem alistGet_set_ne {α : Type} {k k' : String} (h : k' ≠ k) (v : α)
    (l : List (String × α)) : alistGet k (alistSet k' v l) = alistGet k l := by
  induction l with
  | nil => simp [alistGet, alistSet, h]
  | cons p r ih =>
      by_cases hp : p.1 = k'
      · have hk : p.1 ≠ k := by rw [hp]; exact h
        simp [alistGet, alistSet, hp, h, Ne.symm h, hk]
      · by_cases hk : p.1 = k <;> simp [alistGet, alistSet, hp, h, Ne.symm h, hk, ih]

@[simp]
theorem alistGet_remove_ne {α : Type} {k k' : String} (h : k' ≠ k)
    (l : List (String × α)) : alistGet k (alistRemove k' l) = alistGet k l := by
  induction l with
  | nil => simp [alistRemove]
  | cons p r ih =>
      by_cases hp : p.1 = k'
      · have hk : p.1 ≠ k := by rw [hp]; exact h
        simp [alistGet, alistRemove, hp, h, Ne.symm h, hk]
      · by_cases hk : p.1 = k <;> simp [alistGet, alistRemove, hp, h, Ne.symm h, hk, ih]

@[simp]
theorem alistSet_set {α : Type} (k : String) (v w : α) (l : List (String × α)) :
    alistSet k v (alistSet k w l) = alistSet k v l := by
  induction l with
  | nil => simp [alistSet]
  | cons p r ih =>
      by_cases hp : p.1 = k
      · simp [alistSet, hp]
      · simp [alistSet, hp, ih]

@[simp]
theorem alistRemove_set {α : Type} (k : String) (v : α) (l : List (String × α)) :
    alistRemove k (alistSet k v l) = alistRemove k l := by
  induction l with
  | nil => simp [alistSet, alistRemove]
  | cons p r ih =>
      by_cases hp : p.1 = k
      · simp [alistSet, alistRemove, hp]
      · simp [alistSet, alistRemove, hp, ih]

theorem alistRemove_absent {α : Type} {k : String} {l : List (String × α)}
    (h : alistGet k l = none) : alistRemove k l = l := by
  induction l with
  | nil => simp [alistRemove]
  | cons p r ih =>
      by_cases hp : p.1 = k
      · simp [alistGet, hp] at h
      · simp [alistGet, hp] at h
        simp [alistRemove, hp, ih h]

@[simp]
theorem cancelTimer_none (p : List Timer) : cancelTimer none p = p := rfl

@[simp]
theorem truthyTime_none : truthyTime none = false := rfl

theorem dialCore_renderDial (s : Sys) (i l : String) (st : DialState) (j : String) :
    dialCore (dialStateOf (s.renderDial i l st) j) =
      dialCore (dialStateOf (s.setDial i st) j) := by
  by_cases h : j = i
  · subst h
    simp only [Sys.renderDial, Sys.renderDialNow, Sys.setDial]
    split
    · simp [dialStateOf, dialCore]
    · split <;> simp [dialStateOf, dialCore]
  · have hne : i ≠ j := fun hh => h hh.symm
    simp only [Sys.renderDial, Sys.renderDialNow, Sys.setDial]
    split
    · simp [dialStateOf, dialCore, alistGet_set_ne hne]
    · split <;> simp [dialStateOf, dialCore, alistGet_set_ne hne]

theorem requests_renderDial (s : Sys) (i l : String) (st : DialState) :
    (s.renderDial i l st).requests = s.requests ++ [(i, l, s.now)] := by
  simp only [Sys.renderDial, Sys.renderDialNow, Sys.setDial]
  split
  · simp
  · split <;> simp

theorem now_renderDial (s : Sys) (i l : String) (st : DialState) :
    (s.renderDial i l st).now = s.now := by
  simp only [Sys.renderDial, Sys.renderDialNow, Sys.setDial]
  split
  · simp
  · split <;> simp

/-- After `renderDial i l st` the record stored under `i` is `st` with at
most the throttle bookkeeping fields (`pendingLabel`, `renderTimer`,
`lastRenderAt`) rewritten. -/
theorem dialStateOf_renderDial_self (s : Sys) (i l : String) (st : DialState) :
    ∃ pl rt lra, dialStateOf (s.renderDial i l st) i =
      { st with pendingLabel := pl, renderTimer := rt, lastRenderAt := lra } := by
  simp only [Sys.renderDial, Sys.renderDialNow, Sys.setDial]
  split
  · exact ⟨st.pendingLabel, st.renderTimer, s.now, by simp [dialStateOf]⟩
  · split
    · exact ⟨some l, st.renderTimer, st.lastRenderAt, by simp [dialStateOf]⟩
    · exact ⟨some l, some s.nextTid, st.lastRenderAt, by simp [dialStateOf]⟩

/-- The dial-state effect of `onTouchTap` on the tapped identity. -/
theorem onTouchTap_state (s : Sys) (id : String) (rawX rawY : ℚ) (hold : Bool) :
    ∃ pl rt lra,
      dialStateOf (s.onTouchTap id rawX rawY hold) id =
        { dialStateOf s id with
            touches := (dialStateOf s id).touches + 1,
            dotX := clamp ((if rawX ≤ 1 then rawX * (TOUCH_CANVAS_WIDTH : ℚ) else rawX)
                - (TOUCH_DOT_RADIUS : ℚ)) 0
                ((TOUCH_CANVAS_WIDTH : ℚ) - (TOUCH_DOT_RADIUS : ℚ) * 2) + (TOUCH_DOT_RADIUS : ℚ),
            dotY := clamp ((if rawY ≤ 1 then rawY * (TOUCH_CANVAS_HEIGHT : ℚ) else rawY)
                - (TOUCH_DOT_RADIUS : ℚ)) 0
                ((TOUCH_CANVAS_HEIGHT : ℚ) - (TOUCH_DOT_RADIUS : ℚ) * 2) + (TOUCH_DOT_RADIUS : ℚ),
            hasDot := true,
            lastInputType := if hold then .hold else .tap,
            pendingLabel := pl, renderTimer := rt, lastRenderAt := lra } := by
  unfold Sys.onTouchTap Sys.getDialState
  rcases hg : alistGet id s.dials with _ | st₀ <;>
    · simp only [hg, Sys.setDial]
      obtain ⟨pl, rt, lra, h⟩ := dialStateOf_renderDial_self _ id _ _
      exact ⟨pl, rt, lra, by rw [h]; simp [dialStateOf, hg]⟩

/-- The request logged by `onTouchTap`. -/
theorem onTouchTap_requests (s : Sys) (id : String) (rawX rawY : ℚ) (hold : Bool) :
    (s.onTouchTap id rawX rawY hold).requests = s.requests ++
      [(id, (if hold then "HOLD" else "TAP") ++ " "
          ++ toString (jsRound rawX) ++ "," ++ toString (jsRound rawY), s.now)] := by
  unfold Sys.onTouchTap Sys.getDialState
  rcases hg : alistGet id s.dials with _ | st₀ <;>
    · simp only [hg, Sys.setDial]
      rw [requests_renderDial]

/-- The dial-state effect of `onDialRotate` on the rotated identity. -/
theorem onDialRotate_state (s : Sys) (id : String) (k : Int) :
    ∃ pl rt lra,
      dialStateOf (s.onDialRotate id k) id =
        { dialStateOf s id with
            rotates := (dialStateOf s id).rotates + k.natAbs,
            netTicks := (dialStateOf s id).netTicks + k,
            lastTicks := k,
            lastRotateDirection := Int.sign k,
            lastInputType := .rotate,
            pendingLabel := pl, renderTimer := rt, lastRenderAt := lra } := by
  unfold Sys.onDialRotate Sys.getDialState
  rcases hg : alistGet id s.dials with _ | st₀ <;>
    · simp only [hg, Sys.setDial]
      obtain ⟨pl, rt, lra, h⟩ := dialStateOf_renderDial_self _ id _ _
      exact ⟨pl, rt, lra, by rw [h]; simp [dialStateOf, hg]⟩

/-- The request logged by `onDialRotate`: the label shows the updated
signed net. -/
theorem onDialRotate_requests (s : Sys) (id : String) (k : Int) :
    (s.onDialRotate id k).requests = s.requests ++
      [(id, "ROT " ++ formatSigned ((dialStateOf s id).netTicks + k), s.now)] := by
  unfold Sys.onDialRotate Sys.getDialState
  rcases hg : alistGet id s.dials with _ | st₀ <;>
    · simp only [hg, Sys.setDial]
      rw [requests_renderDial]
      simp [dialStateOf, hg]

/-- Full characterization of `onKeyDown` as an explicit state: the
counter bump, the fresh hold clock, the `down` render, the cancelled old
handles, the fresh 100 ms hold-tick timer, and its tracking entry. -/
theorem onKeyDown_eq (s : Sys) (id : String) :
    s.onKeyDown id =
      { now := s.now,
        keys := alistSet id
          { keyStateOf s id with
              down := (keyStateOf s id).down + 1,
              holdStartedAt := some s.now,
              lastHoldDuration := none,
              holdTimerRef := some s.nextTid,
              upFlashTimer := none } s.keys,
        dials := s.dials,
        keyTimers := alistSet id ⟨some s.nextTid, none⟩ (alistRemove id s.keyTimers),
        pending := cancelTimer ((alistGet id s.keyTimers).bind KeyTimersEntry.flash)
            (cancelTimer ((alistGet id s.keyTimers).bind KeyTimersEntry.hold)
              (cancelTimer (keyStateOf s id).upFlashTimer
                (cancelTimer (keyStateOf s id).holdTimerRef s.pending)))
          ++ [⟨s.nextTid, id, s.now + KEY_HOLD_TIMER_INTERVAL_MS, .keyHold⟩],
        nextTid := s.nextTid + 1,
        trace := s.trace ++ [.setImage id s.now
          ⟨"DOWN", ⟨(keyStateOf s id).down + 1, (keyStateOf s id).up⟩, .down, none, none⟩],
        requests := s.requests } := by
  unfold Sys.onKeyDown Sys.getKeyState Sys.clearKeyTimers Sys.setKey Sys.renderKey
  rcases hk : alistGet id s.keys with _ | st₀ <;>
    rcases ht : alistGet id s.keyTimers with _ | tr <;>
      simp [keyStateOf, hk, ht, freshKeyState, alistRemove_absent, truthyTime]

/-- Characterization of `onKeyUp` when the held duration reaches the
500 ms threshold: sticky `hold` render with the frozen duration, hold
timer cancelled, tracked entry dropped, and no new timer scheduled. -/
theorem onKeyUp_eq_hold (s : Sys) (id : String) (h : keyUpHeld s id ≥ KEY_HOLD_THRESHOLD_MS) :
    s.onKeyUp id =
      { now := s.now,
        keys := alistSet id
          { keyStateOf s id with
              up := (keyStateOf s id).up + 1,
              lastHoldDuration := some (keyUpHeld s id),
              holdStartedAt := none,
              holdTimerRef := none } s.keys,
        dials := s.dials,
        keyTimers := alistRemove id s.keyTimers,
        pending := cancelTimer ((alistGet id s.keyTimers).bind KeyTimersEntry.hold)
          (cancelTimer (keyStateOf s id).holdTimerRef s.pending),
        nextTid := s.nextTid,
        trace := s.trace ++ [.setImage id s.now
          ⟨"HOLD", ⟨(keyStateOf s id).down, (keyStateOf s id).up + 1⟩, .hold,
            some ((keyUpHeld s id : ℚ) / 1000), none⟩],
        requests := s.requests } := by
  rcases hk : alistGet id s.keys with _ | st₀
  · exfalso
    rw [keyUpHeld, keyStateOf, hk] at h
    simp [freshKeyState, truthyTime, KEY_HOLD_THRESHOLD_MS] at h
  · rcases ht : alistGet id s.keyTimers with _ | tr <;>
      · rw [keyUpHeld, keyStateOf, hk] at h
        simp only [Option.getD_some] at h
        unfold Sys.onKeyUp Sys.getKeyState Sys.setKey Sys.renderKey
        simp [keyStateOf, hk, ht, alistRemove_absent, h, keyUpHeld,
          KEY_HOLD_THRESHOLD_MS] at h ⊢
        simp [h]

/-- Characterization of `onKeyUp` when the press was shorter than the
500 ms threshold: `up` flash render, new 2000 ms revert timer tracked
both in the state and in `keyTimers`. -/
theorem onKeyUp_eq_flash (s : Sys) (id : String) (h : keyUpHeld s id < KEY_HOLD_THRESHOLD_MS) :
    s.onKeyUp id =
      { now := s.now,
        keys := alistSet id
          { keyStateOf s id with
              up := (keyStateOf s id).up + 1,
              lastHoldDuration := some (keyUpHeld s id),
              holdStartedAt := none,
              holdTimerRef := none,
              upFlashTimer := some s.nextTid } s.keys,
        dials := s.dials,
        keyTimers := alistSet id ⟨none, some s.nextTid⟩ s.keyTimers,
        pending := cancelTimer (keyStateOf s id).upFlashTimer
            (cancelTimer ((alistGet id s.keyTimers).bind KeyTimersEntry.hold)
              (cancelTimer (keyStateOf s id).holdTimerRef s.pending))
          ++ [⟨s.nextTid, id, s.now + KEY_UP_FLASH_MS, .keyFlash⟩],
        nextTid := s.nextTid + 1,
        trace := s.trace ++ [.setImage id s.now
          ⟨"UP", ⟨(keyStateOf s id).down, (keyStateOf s id).up + 1⟩, .up, none, none⟩],
        requests := s.requests } := by
  rcases hk : alistGet id s.keys with _ | st₀ <;>
    rcases ht : alistGet id s.keyTimers with _ | tr <;>
      · rw [keyUpHeld, keyStateOf, hk] at h
        try simp only [Option.getD_some] at h
        unfold Sys.onKeyUp Sys.getKeyState Sys.setKey Sys.renderKey
        simp [keyStateOf, hk, ht, freshKeyState, alistRemove_absent,
          keyUpHeld, KEY_HOLD_THRESHOLD_MS] at h ⊢
        try simp [Nat.not_le.mpr h, h]

@[simp]
theorem owner_setImage (i : String) (n : Nat) (o : KeySvgOpts) :
    RenderCall.owner (.setImage i n o) = i := rfl

@[simp]
theorem owner_setFeedback (i : String) (n : Nat) (o : DialSvgOpts) :
    RenderCall.owner (.setFeedback i n o) = i := rfl

theorem mem_cancelTimer {tm : Timer} {h : Option Nat} {p : List Timer}
    (hm : tm ∈ cancelTimer h p) : tm ∈ p := by
  cases h with
  | none => exact hm
  | some t => exact (List.mem_filter.1 hm).1

theorem cancelTimer_tid {tm : Timer} {t : Nat} {p : List Timer}
    (hm : tm ∈ cancelTimer (some t) p) : tm.tid ≠ t := by
  have := (List.mem_filter.1 hm).2
  simpa using this

theorem find?_append_right {α : Type} {p : α → Bool} {l₁ l₂ : List α}
    (h : ∀ a ∈ l₁, p a = false) : List.find? p (l₁ ++ l₂) = List.find? p l₂ := by
  induction l₁ with
  | nil => simp
  | cons a r ih =>
      have ha := h a (by simp)
      simp only [List.cons_append, List.find?_cons, ha]
      exact ih fun b hb => h b (by simp [hb])

theorem step_fire_none {s : Sys} {tid : Nat}
    (h : ∀ tm ∈ s.pending, tm.tid ≠ tid) : s.step (.fire tid) = s := by
  have : s.pending.find? (fun tm => tm.tid == tid) = none := by
    rw [List.find?_eq_none]
    intro tm hm
    simp [h tm hm]
  simp [Sys.step, this]

/-! ### Escaping lemmas -/

theorem replaceChar_append (a b : List Char) (t : Char) (r : List Char) :
    replaceChar (a ++ b) t r = replaceChar a t r ++ replaceChar b t r := by
  simp [replaceChar]

theorem escapeData_append (a b : List Char) :
    escapeData (a ++ b) = escapeData a ++ escapeData b := by
  simp [escapeData, replaceChar_append]

theorem escapeData_single (c : Char) : escapeData [c] = escChar c := by
  by_cases h1 : c = '&'
  · subst h1; decide
  by_cases h2 : c = '<'
  · subst h2; decide
  by_cases h3 : c = '>'
  · subst h3; decide
  by_cases h4 : c = '"'
  · subst h4; decide
  by_cases h5 : c = APOS
  · subst h5; decide
  simp [escapeData, replaceChar, escChar, h1, h2, h3, h4, h5]

theorem escapeData_eq_flatMap (cs : List Char) : escapeData cs = cs.flatMap escChar := by
  induction cs with
  | nil => rfl
  | cons c cs ih =>
      have : escapeData (c :: cs) = escapeData [c] ++ escapeData cs := by
        rw [← escapeData_append]
        rfl
      rw [this, escapeData_single, ih, List.flatMap_cons]

theorem escChar_cases (c : Char) :
    escChar c ∈ svgEntities
    ∨ (escChar c = [c] ∧ c ≠ '&' ∧ c ≠ '<' ∧ c ≠ '>' ∧ c ≠ '"' ∧ c ≠ APOS) := by
  by_cases h1 : c = '&'
  · subst h1; left; decide
  by_cases h2 : c = '<'
  · subst h2; left; decide
  by_cases h3 : c = '>'
  · subst h3; left; decide
  by_cases h4 : c = '"'
  · subst h4; left; decide
  by_cases h5 : c = APOS
  · subst h5; left; decide
  right
  exact ⟨by simp [escChar, h1, h2, h3, h4, h5], h1, h2, h3, h4, h5⟩

theorem escapeSvg_data (value : String) :
    (escapeSvg value).data = value.data.flatMap escChar := by
  simp [escapeSvg, escapeData_eq_flatMap]

theorem escapeSvg_no_raw (value : String) :
    ∀ c ∈ (escapeSvg value).data, c ≠ '<' ∧ c ≠ '>' ∧ c ≠ '"' ∧ c ≠ APOS := by
  intro c hc
  rw [escapeSvg_data] at hc
  rcases List.mem_flatMap.1 hc with ⟨a, _, hmem⟩
  rcases escChar_cases a with he | ⟨he, hn⟩
  · simp only [svgEntities, List.mem_cons, List.not_mem_nil, or_false] at he
    rcases he with h | h | h | h | h <;>
      · rw [h] at hmem
        fin_cases hmem <;> decide
  · rw [he] at hmem
    rw [List.mem_singleton] at hmem
    subst hmem
    exact ⟨hn.2.1, hn.2.2.1, hn.2.2.2.1, hn.2.2.2.2⟩

theorem flatMap_escChar_amp (cs : List Char) :
    ∀ (i : Nat) (r : List Char),
      (cs.flatMap escChar).drop i = '&' :: r →
      ∃ e ∈ svgEntities, ∃ t, (cs.flatMap escChar).drop i = e ++ t := by
  induction cs with
  | nil =>
      intro i r h
      simp at h
  | cons c cs ih =>
      intro i r h
      rw [List.flatMap_cons] at h ⊢
      rw [List.drop_append_eq_append_drop] at h ⊢
      by_cases hi : i < (escChar c).length
      · rcases escChar_cases c with he | ⟨he, hne, _⟩
        · simp only [svgEntities, List.mem_cons, List.not_mem_nil, or_false] at he
          rcases he with hcc | hcc | hcc | hcc | hcc <;>
            · rw [hcc] at hi h ⊢
              simp only [List.length_cons, List.length_nil] at hi
              norm_num at hi
              interval_cases i <;>
                first
                | (rw [List.drop_zero]
                   refine ⟨_, by decide, _, rfl⟩)
                | (exfalso
                   simp only [List.drop_succ_cons, List.drop_zero] at h
                   rw [List.cons_append] at h
                   injection h with h1 _
                   exact absurd h1 (by decide))
        · rw [he] at hi h
          simp only [List.length_singleton] at hi
          have hi0 : i = 0 := Nat.lt_one_iff.1 hi
          subst hi0
          rw [List.drop_zero, List.singleton_append] at h
          injection h with h1 _
          exact (hne h1).elim
      · have hle : (escChar c).length ≤ i := Nat.le_of_not_lt hi
        rw [List.drop_eq_nil_of_le hle] at h ⊢
        rw [List.nil_append] at h ⊢
        exact ih (i - (escChar c).length) r h

theorem renderDial_adds (s : Sys) (i l : String) (st : DialState) :
    StepAdds s (s.renderDial i l st) i s.nextTid := by
  simp only [Sys.renderDial, Sys.renderDialNow, Sys.setDial]
  split
  · exact ⟨fun tm h => .inl h, le_refl _,
      [.setFeedback i s.now (dialDrawOpts l st)], by simp, by simp [RenderCall.owner]⟩
  · split
    · exact ⟨fun tm h => .inl h, le_refl _, [], by simp, by simp⟩
    · refine ⟨fun tm h => ?_, by simp, [], by simp, by simp⟩
      rcases List.mem_append.1 h with h | h
      · exact .inl h
      · simp at h
        exact .inr (by simp [h])

theorem renderKey_adds (s : Sys) (i : String) (vs : VisualState) (st : KeyState) :
    StepAdds s (s.renderKey i vs st) i s.nextTid := by
  refine ⟨fun tm h => .inl h, le_refl _, _, rfl, ?_⟩
  intro c hc
  rw [List.mem_singleton] at hc
  subst hc
  rfl

theorem onWillAppear_adds (s : Sys) (i : String) (k : Bool) (c : Nat) :
    StepAdds s (s.onWillAppear i k c) i s.nextTid := by
  unfold Sys.onWillAppear Sys.getKeyState
  split
  · rcases hk : alistGet i s.keys with _ | st₀ <;>
      · simp only [hk]
        exact renderKey_adds _ i _ _
  · simp only [Sys.setDial]
    exact renderDial_adds _ i _ _

theorem onWillDisappear_adds (s : Sys) (i : String) :
    StepAdds s (s.onWillDisappear i) i s.nextTid := by
  rcases ht : alistGet i s.keyTimers with _ | tr
  · rcases hd : alistGet i s.dials with _ | dst
    · simp only [Sys.onWillDisappear, ht, hd]
      exact ⟨fun tm h => .inl h, le_refl _, [], by simp, by simp⟩
    · simp only [Sys.onWillDisappear, ht, hd]
      split
      · exact ⟨fun tm h => .inl (mem_cancelTimer h), le_refl _, [], by simp, by simp⟩
      · exact ⟨fun tm h => .inl h, le_refl _, [], by simp, by simp⟩
  · rcases hd : alistGet i s.dials with _ | dst
    · simp only [Sys.onWillDisappear, ht, hd]
      exact ⟨fun tm h => .inl (mem_cancelTimer (mem_cancelTimer h)), le_refl _, [],
        by simp, by simp⟩
    · simp only [Sys.onWillDisappear, ht, hd]
      split
      · exact ⟨fun tm h => .inl (mem_cancelTimer (mem_cancelTimer (mem_cancelTimer h))),
          le_refl _, [], by simp, by simp⟩
      · exact ⟨fun tm h => .inl (mem_cancelTimer (mem_cancelTimer h)), le_refl _, [],
          by simp, by simp⟩

theorem onDialDown_adds (s : Sys) (i : String) :
    StepAdds s (s.onDialDown i) i s.nextTid := by
  unfold Sys.onDialDown Sys.getDialState
  rcases hd : alistGet i s.dials with _ | st₀ <;>
    · simp only [hd, Sys.setDial]
      exact renderDial_adds _ i _ _

theorem onDialUp_adds (s : Sys) (i : String) :
    StepAdds s (s.onDialUp i) i s.nextTid := by
  unfold Sys.onDialUp Sys.getDialState
  rcases hd : alistGet i s.dials with _ | st₀ <;>
    · simp only [hd, Sys.setDial]
      exact renderDial_adds _ i _ _

theorem onDialRotate_adds (s : Sys) (i : String) (k : Int) :
    StepAdds s (s.onDialRotate i k) i s.nextTid := by
  unfold Sys.onDialRotate Sys.getDialState
  rcases hd : alistGet i s.dials with _ | st₀ <;>
    · simp only [hd, Sys.setDial]
      exact renderDial_adds _ i _ _

theorem onTouchTap_adds (s : Sys) (i : String) (x y : ℚ) (hold : Bool) :
    StepAdds s (s.onTouchTap i x y hold) i s.nextTid := by
  unfold Sys.onTouchTap Sys.getDialState
  rcases hd : alistGet i s.dials with _ | st₀ <;>
    · simp only [hd, Sys.setDial]
      exact renderDial_adds _ i _ _

theorem onKeyDown_adds (s : Sys) (i : String) :
    StepAdds s (s.onKeyDown i) i s.nextTid := by
  rw [onKeyDown_eq]
  refine ⟨fun tm h => ?_, by simp, [_], rfl, by simp [RenderCall.owner]⟩
  rcases List.mem_append.1 h with h | h
  · exact .inl (mem_cancelTimer (mem_cancelTimer (mem_cancelTimer (mem_cancelTimer h))))
  · simp at h
    exact .inr (by simp [h])

theorem onKeyUp_adds (s : Sys) (i : String) :
    StepAdds s (s.onKeyUp i) i s.nextTid := by
  by_cases hd : keyUpHeld s i ≥ KEY_HOLD_THRESHOLD_MS
  · rw [onKeyUp_eq_hold s i hd]
    exact ⟨fun tm h => .inl (mem_cancelTimer (mem_cancelTimer h)), by simp,
      [_], rfl, by simp [RenderCall.owner]⟩
  · rw [onKeyUp_eq_flash s i (Nat.not_le.1 hd)]
    refine ⟨fun tm h => ?_, by simp, [_], rfl, by simp [RenderCall.owner]⟩
    rcases List.mem_append.1 h with h | h
    · exact .inl (mem_cancelTimer (mem_cancelTimer (mem_cancelTimer h)))
    · simp at h
      exact .inr (by simp [h])

theorem fireTimer_adds (s : Sys) (t : Timer) :
    StepAdds s (s.fireTimer t) t.owner t.tid := by
  rcases t with ⟨tid, owner, due, kind⟩
  cases kind with
  | keyHold =>
      refine ⟨fun tm h => ?_, ?_, ?_⟩
      · simp only [Sys.fireTimer, Sys.renderKey] at h
        have h' : tm ∈ List.filter (fun tm' => decide (tm'.tid ≠ tid)) s.pending
            ++ [⟨tid, owner, due + KEY_HOLD_TIMER_INTERVAL_MS, .keyHold⟩] := by
          revert h
          split
          · split
            · split <;> exact fun h => h
            · exact fun h => h
          · exact fun h => h
        rcases List.mem_append.1 h' with h' | h'
        · exact .inl (List.mem_filter.1 h').1
        · simp at h'
          exact .inr (by simp [h'])
      · simp only [Sys.fireTimer, Sys.renderKey]
        split
        · split
          · split <;> simp
          · simp
        · simp
      · simp only [Sys.fireTimer, Sys.renderKey]
        split
        · split
          · split
            · exact ⟨_, rfl, by simp⟩
            · exact ⟨[], by simp, by simp⟩
          · exact ⟨[], by simp, by simp⟩
        · exact ⟨[], by simp, by simp⟩
  | keyFlash =>
      refine ⟨fun tm h => ?_, ?_, ?_⟩
      · simp only [Sys.fireTimer, Sys.setKey, Sys.renderKey] at h
        have h' : tm ∈ List.filter (fun tm' => decide (tm'.tid ≠ tid)) s.pending := by
          revert h
          split <;> exact fun h => h
        exact .inl (List.mem_filter.1 h').1
      · simp only [Sys.fireTimer, Sys.setKey, Sys.renderKey]
        split <;> simp
      · simp only [Sys.fireTimer, Sys.setKey, Sys.renderKey]
        split
        · exact ⟨_, rfl, by simp⟩
        · exact ⟨[], by simp, by simp⟩
  | dialFlush fb =>
      refine ⟨fun tm h => ?_, ?_, ?_⟩
      · simp only [Sys.fireTimer, Sys.setDial, Sys.renderDialNow] at h
        have h' : tm ∈ List.filter (fun tm' => decide (tm'.tid ≠ tid)) s.pending := by
          revert h
          split <;> exact fun h => h
        exact .inl (List.mem_filter.1 h').1
      · simp only [Sys.fireTimer, Sys.setDial, Sys.renderDialNow]
        split <;> simp
      · simp only [Sys.fireTimer, Sys.setDial, Sys.renderDialNow]
        split
        · exact ⟨_, rfl, by simp⟩
        · exact ⟨[], by simp, by simp⟩

/-! ### Step-level lemmas -/

theorem steps_nil (s : Sys) : s.steps [] = s := rfl

theorem steps_cons (s : Sys) (a : Act) (r : List Act) :
    s.steps (a :: r) = (s.step a).steps r := rfl

theorem step_adds_event (s : Sys) (a : Act) (i : String) (h : a.eventId = some i) :
    StepAdds s (s.step a) i s.nextTid := by
  cases a with
  | appear id k c t =>
      simp [Act.eventId] at h
      subst h
      exact onWillAppear_adds { s with now := t } id k c
  | disappear id t =>
      simp [Act.eventId] at h
      subst h
      exact onWillDisappear_adds { s with now := t } id
  | keyDown id t =>
      simp [Act.eventId] at h
      subst h
      exact onKeyDown_adds { s with now := t } id
  | keyUp id t =>
      simp [Act.eventId] at h
      subst h
      exact onKeyUp_adds { s with now := t } id
  | dialDown id t =>
      simp [Act.eventId] at h
      subst h
      exact onDialDown_adds { s with now := t } id
  | dialUp id t =>
      simp [Act.eventId] at h
      subst h
      exact onDialUp_adds { s with now := t } id
  | dialRotate id k t =>
      simp [Act.eventId] at h
      subst h
      exact onDialRotate_adds { s with now := t } id k
  | touchTap id x y hold t =>
      simp [Act.eventId] at h
      subst h
      exact onTouchTap_adds { s with now := t } id x y hold
  | fire tid => simp [Act.eventId] at h

theorem step_fire_adds (s : Sys) (tid : Nat) :
    s.step (.fire tid) = s ∨ ∃ tm ∈ s.pending, StepAdds s (s.step (.fire tid)) tm.owner tm.tid := by
  rcases hf : s.pending.find? (fun tm => tm.tid == tid) with _ | tm
  · left
    simp [Sys.step, hf]
  · right
    refine ⟨tm, List.mem_of_find?_eq_some hf, ?_⟩
    simp only [Sys.step, hf]
    exact fireTimer_adds s tm

theorem fresh_step (s : Sys) (a : Act) (f : Nat)
    (h1 : ∀ tm ∈ s.pending, tm.tid ≠ f) (h2 : f < s.nextTid) :
    (∀ tm ∈ (s.step a).pending, tm.tid ≠ f) ∧ f < (s.step a).nextTid := by
  rcases ha : a.eventId with _ | i
  · have : ∃ tid, a = .fire tid := by
      cases a <;> simp_all [Act.eventId]
    obtain ⟨tid, rfl⟩ := this
    rcases step_fire_adds s tid with he | ⟨tm, hm, hp, hn, _⟩
    · rw [he]
      exact ⟨h1, h2⟩
    · refine ⟨fun tm' hm' => ?_, lt_of_lt_of_le h2 hn⟩
      rcases hp tm' hm' with h | ⟨_, h⟩
      · exact h1 tm' h
      · rw [h]
        exact h1 tm hm
  · obtain ⟨hp, hn, _⟩ := step_adds_event s a i ha
    refine ⟨fun tm' hm' => ?_, lt_of_lt_of_le h2 hn⟩
    rcases hp tm' hm' with h | ⟨_, h⟩
    · exact h1 tm' h
    · rw [h]
      omega

theorem fresh_steps (l : List Act) (s : Sys) (f : Nat)
    (h1 : ∀ tm ∈ s.pending, tm.tid ≠ f) (h2 : f < s.nextTid) :
    (∀ tm ∈ (s.steps l).pending, tm.tid ≠ f) ∧ f < (s.steps l).nextTid := by
  induction l generalizing s with
  | nil => exact ⟨h1, h2⟩
  | cons a r ih =>
      rw [steps_cons]
      obtain ⟨g1, g2⟩ := fresh_step s a f h1 h2
      exact ih _ g1 g2

theorem steps_avoid (id : String) (l : List Act) :
    ∀ (s : Sys),
      (∀ tm ∈ s.pending, tm.owner ≠ id) →
      (∀ a ∈ l, a.eventId ≠ some id) →
      (∀ tm ∈ (s.steps l).pending, tm.owner ≠ id) ∧
      ∃ ext, (s.steps l).trace = s.trace ++ ext ∧ ∀ c ∈ ext, RenderCall.owner c ≠ id := by
  induction l with
  | nil =>
      intro s hp _
      exact ⟨hp, [], by simp [steps_nil], by simp⟩
  | cons a r ih =>
      intro s hp ha
      have key : (∀ tm ∈ (s.step a).pending, tm.owner ≠ id) ∧
          ∃ ext, (s.step a).trace = s.trace ++ ext ∧ ∀ c ∈ ext, RenderCall.owner c ≠ id := by
        rcases he : a.eventId with _ | i
        · have : ∃ tid, a = .fire tid := by
            cases a <;> simp_all [Act.eventId]
          obtain ⟨tid, rfl⟩ := this
          rcases step_fire_adds s tid with hq | ⟨tm, hm, hq, _, ext, het, ho⟩
          · rw [hq]
            exact ⟨hp, [], by simp, by simp⟩
          · refine ⟨fun tm' hm' => ?_, ext, het, fun c hc => ?_⟩
            · rcases hq tm' hm' with h | ⟨h, _⟩
              · exact hp tm' h
              · rw [h]
                exact hp tm hm
            · rw [ho c hc]
              exact hp tm hm
        · have hne : i ≠ id := by
            intro hcon
            exact ha a (by simp) (by rw [he, hcon])
          obtain ⟨hq, _, ext, het, ho⟩ := step_adds_event s a i he
          refine ⟨fun tm' hm' => ?_, ext, het, fun c hc => ?_⟩
          · rcases hq tm' hm' with h | ⟨h, _⟩
            · exact hp tm' h
            · rw [h]
              exact hne
          · rw [ho c hc]
            exact hne
      obtain ⟨k1, ext₁, k2, k3⟩ := key
      obtain ⟨m1, ext₂, m2, m3⟩ := ih (s.step a) k1 (fun b hb => ha b (by simp [hb]))
      refine ⟨by rw [steps_cons]; exact m1, ext₁ ++ ext₂, ?_, ?_⟩
      · rw [steps_cons, m2, k2, List.append_assoc]
      · intro c hc
        rcases List.mem_append.1 hc with h | h
        · exact k3 c h
        · exact m3 c h

/-! ### Key-counter preservation lemmas -/

theorem keys_renderDial (s : Sys) (i l : String) (st : DialState) :
    (s.renderDial i l st).keys = s.keys := by
  simp only [Sys.renderDial, Sys.renderDialNow, Sys.setDial]
  split
  · simp
  · split <;> simp

theorem keyStateOf_onWillAppear (s : Sys) (i : String) (k : Bool) (c : Nat) (j : String) :
    keyStateOf (s.onWillAppear i k c) j = keyStateOf s j := by
  unfold Sys.onWillAppear Sys.getKeyState
  split
  · rcases hk : alistGet i s.keys with _ | st₀
    · simp only [hk]
      by_cases hj : j = i
      · subst hj
        simp [keyStateOf, Sys.renderKey, Sys.setKey, hk]
      · simp [keyStateOf, Sys.renderKey, Sys.setKey,
          alistGet_set_ne (fun hh => hj hh.symm)]
    · simp [hk, keyStateOf, Sys.renderKey]
  · simp only [Sys.setDial]
    simp [keyStateOf, keys_renderDial]

theorem keys_onWillDisappear (s : Sys) (i : String) :
    (s.onWillDisappear i).keys = s.keys := by
  rcases ht : alistGet i s.keyTimers with _ | tr <;>
    rcases hd : alistGet i s.dials with _ | dst <;>
      simp only [Sys.onWillDisappear, ht, hd] <;>
      try split <;> simp

theorem keys_onDialDown (s : Sys) (i : String) : (s.onDialDown i).keys = s.keys := by
  unfold Sys.onDialDown Sys.getDialState
  rcases hd : alistGet i s.dials with _ | st₀ <;>
    · simp only [hd, Sys.setDial]
      simp [keys_renderDial]

theorem keys_onDialUp (s : Sys) (i : String) : (s.onDialUp i).keys = s.keys := by
  unfold Sys.onDialUp Sys.getDialState
  rcases hd : alistGet i s.dials with _ | st₀ <;>
    · simp only [hd, Sys.setDial]
      simp [keys_renderDial]

theorem keys_onDialRotate (s : Sys) (i : String) (k : Int) :
    (s.onDialRotate i k).keys = s.keys := by
  unfold Sys.onDialRotate Sys.getDialState
  rcases hd : alistGet i s.dials with _ | st₀ <;>
    · simp only [hd, Sys.setDial]
      simp [keys_renderDial]

theorem keys_onTouchTap (s : Sys) (i : String) (x y : ℚ) (hold : Bool) :
    (s.onTouchTap i x y hold).keys = s.keys := by
  unfold Sys.onTouchTap Sys.getDialState
  rcases hd : alistGet i s.dials with _ | st₀ <;>
    · simp only [hd, Sys.setDial]
      simp [keys_renderDial]

theorem fire_counters (s : Sys) (t : Timer) (j : String) :
    (keyStateOf (s.fireTimer t) j).down = (keyStateOf s j).down
    ∧ (keyStateOf (s.fireTimer t) j).up = (keyStateOf s j).up := by
  rcases t with ⟨tid, owner, due, kind⟩
  cases kind with
  | keyHold =>
      rcases hk : alistGet owner s.keys with _ | st₀ <;>
        · simp only [Sys.fireTimer, Sys.renderKey, hk]
          try split
          all_goals try split
          all_goals simp [keyStateOf]
  | keyFlash =>
      rcases hk : alistGet owner s.keys with _ | st₀
      · simp [Sys.fireTimer, hk, keyStateOf]
      · simp only [Sys.fireTimer, Sys.setKey, Sys.renderKey, hk]
        by_cases hj : j = owner
        · subst hj
          simp [keyStateOf, hk]
        · simp [keyStateOf, alistGet_set_ne (fun hh => hj hh.symm)]
  | dialFlush fb =>
      rcases hd : alistGet owner s.dials with _ | st₀ <;>
        · simp only [Sys.fireTimer, Sys.setDial, Sys.renderDialNow, hd]
          try split
          all_goals simp [keyStateOf]

theorem step_counters (s : Sys) (a : Act) (id : String) :
    (keyStateOf (s.step a) id).down = (keyStateOf s id).down + countKeyDown id [a]
    ∧ (keyStateOf (s.step a) id).up = (keyStateOf s id).up + countKeyUp id [a] := by
  cases a with
  | appear i k c t =>
      simp only [Sys.step, keyStateOf_onWillAppear]
      simp [countKeyDown, countKeyUp, keyStateOf]
  | disappear i t =>
      simp [Sys.step, countKeyDown, countKeyUp, keyStateOf, keys_onWillDisappear]
  | keyDown i t =>
      by_cases hij : i = id
      · subst hij
        simp only [Sys.step, countKeyDown, countKeyUp]
        rw [onKeyDown_eq]
        simp [keyStateOf]
      · simp only [Sys.step, countKeyDown, countKeyUp]
        rw [onKeyDown_eq]
        simp [keyStateOf, alistGet_set_ne hij, hij]
  | keyUp i t =>
      rcases le_or_lt KEY_HOLD_THRESHOLD_MS (keyUpHeld { s with now := t } i) with hge | hlt
      · by_cases hij : i = id
        · subst hij
          simp only [Sys.step, countKeyDown, countKeyUp]
          rw [onKeyUp_eq_hold _ _ hge]
          simp [keyStateOf]
        · simp only [Sys.step, countKeyDown, countKeyUp]
          rw [onKeyUp_eq_hold _ _ hge]
          simp [keyStateOf, alistGet_set_ne hij, hij]
      · by_cases hij : i = id
        · subst hij
          simp only [Sys.step, countKeyDown, countKeyUp]
          rw [onKeyUp_eq_flash _ _ hlt]
          simp [keyStateOf]
        · simp only [Sys.step, countKeyDown, countKeyUp]
          rw [onKeyUp_eq_flash _ _ hlt]
          simp [keyStateOf, alistGet_set_ne hij, hij]
  | dialDown i t =>
      simp [Sys.step, countKeyDown, countKeyUp, keyStateOf, keys_onDialDown]
  | dialUp i t =>
      simp [Sys.step, countKeyDown, countKeyUp, keyStateOf, keys_onDialUp]
  | dialRotate i k t =>
      simp [Sys.step, countKeyDown, countKeyUp, keyStateOf, keys_onDialRotate]
  | touchTap i x y h t =>
      simp [Sys.step, countKeyDown, countKeyUp, keyStateOf, keys_onTouchTap]
  | fire tid =>
      simp only [Sys.step]
      rcases hf : s.pending.find? (fun tm => tm.tid == tid) with _ | tm
      · simp [hf, countKeyDown, countKeyUp]
      · simp only [hf]
        simpa [countKeyDown, countKeyUp] using fire_counters s tm id

theorem countKeyDown_cons (id : String) (a : Act) (r : List Act) :
    countKeyDown id (a :: r) = countKeyDown id [a] + countKeyDown id r := by
  cases a <;> simp [countKeyDown] <;> omega

theorem countKeyUp_cons (id : String) (a : Act) (r : List Act) :
    countKeyUp id (a :: r) = countKeyUp id [a] + countKeyUp id r := by
  cases a <;> simp [countKeyUp] <;> omega

/-- Under the tracking discipline, `onWillDisappear` cancels every
outstanding timer owned by the removed identity. -/
theorem onWillDisappear_clears (s : Sys) (id : String) (h : trackedForId id s = true) :
    ∀ tm ∈ (s.onWillDisappear id).pending, tm.owner ≠ id := by
  rw [trackedForId, List.all_eq_true] at h
  intro tm hm howner
  rcases ht : alistGet id s.keyTimers with _ | tr
  · rcases hd : alistGet id s.dials with _ | dst
    · simp only [Sys.onWillDisappear, ht, hd] at hm
      have hh := h tm hm
      simp only [howner, if_true, ht, hd] at hh
      rcases hk : tm.kind with _ | _ | fb <;> simp [hk] at hh
    · by_cases hrt : dst.renderTimer.isSome = true
      · simp only [Sys.onWillDisappear, ht, hd, hrt, if_true] at hm
        have hsp : tm ∈ s.pending := mem_cancelTimer hm
        have hh := h tm hsp
        simp only [howner, if_true, ht, hd] at hh
        rcases hk : tm.kind with _ | _ | fb <;> simp [hk] at hh
        rw [hh] at hm
        exact cancelTimer_tid hm rfl
      · simp only [Sys.onWillDisappear, ht, hd, hrt, if_false] at hm
        have hh := h tm hm
        simp only [howner, if_true, ht, hd] at hh
        rcases hk : tm.kind with _ | _ | fb <;> simp [hk] at hh
        exact hrt (by rw [hh]; rfl)
  · rcases hd : alistGet id s.dials with _ | dst
    · simp only [Sys.onWillDisappear, ht, hd] at hm
      have hsp : tm ∈ s.pending := mem_cancelTimer (mem_cancelTimer hm)
      have hh := h tm hsp
      simp only [howner, if_true, ht, hd] at hh
      rcases hk : tm.kind with _ | _ | fb <;> simp [hk] at hh
      · have hm' : tm ∈ cancelTimer tr.hold s.pending := mem_cancelTimer hm
        rw [hh] at hm'
        exact cancelTimer_tid hm' rfl
      · rw [hh] at hm
        exact cancelTimer_tid hm rfl
    · by_cases hrt : dst.renderTimer.isSome = true
      · simp only [Sys.onWillDisappear, ht, hd, hrt, if_true] at hm
        have hsp : tm ∈ s.pending :=
          mem_cancelTimer (mem_cancelTimer (mem_cancelTimer hm))
        have hh := h tm hsp
        simp only [howner, if_true, ht, hd] at hh
        rcases hk : tm.kind with _ | _ | fb <;> simp [hk] at hh
        · have hm' : tm ∈ cancelTimer tr.hold s.pending :=
            mem_cancelTimer (mem_cancelTimer hm)
          rw [hh] at hm'
          exact cancelTimer_tid hm' rfl
        · have hm' : tm ∈ cancelTimer tr.flash (cancelTimer tr.hold s.pending) :=
            mem_cancelTimer hm
          rw [hh] at hm'
          exact cancelTimer_tid hm' rfl
        · rw [hh] at hm
          exact cancelTimer_tid hm rfl
      · simp only [Sys.onWillDisappear, ht, hd, hrt, if_false] at hm
        have hsp : tm ∈ s.pending := mem_cancelTimer (mem_cancelTimer hm)
        have hh := h tm hsp
        simp only [howner, if_true, ht, hd] at hh
        rcases hk : tm.kind with _ | _ | fb <;> simp [hk] at hh
        · have hm' : tm ∈ cancelTimer tr.hold s.pending := mem_cancelTimer hm
          rw [hh] at hm'
          exact cancelTimer_tid hm' rfl
        · rw [hh] at hm
          exact cancelTimer_tid hm rfl
        · exact hrt (by rw [hh]; rfl)

/-! ## Claim theorems -/

/-- C4: removing a control identity (`willDisappear`) cancels all of its
outstanding timers — hold-tick, revert flash, and pending render flush —
so that no later step, for any amount of simulated time and any further
activity not addressed to that identity, emits a `setImage`/`setFeedback`
call targeting it.  The hypothesis is the tracking discipline the
handlers maintain: every outstanding timer owned by the identity is
recorded in the bookkeeping that `onWillDisappear` consults. -/
theorem C4_disappear_cancels (s : Sys) (id : String) (h : trackedForId id s = true) :
    (∀ tm ∈ (s.onWillDisappear id).pending, tm.owner ≠ id)
    ∧ ∀ l : List Act, (∀ a ∈ l, a.eventId ≠ some id) →
        ∃ ext, ((s.onWillDisappear id).steps l).trace = (s.onWillDisappear id).trace ++ ext
          ∧ ∀ c ∈ ext, RenderCall.owner c ≠ id := by
  have part1 := onWillDisappear_clears s id h
  exact ⟨part1, fun l hl => (steps_avoid id l _ part1 hl).2⟩

/-- C1: over any action sequence — whatever the timing, the
interleaving with other identities' events, and the timer firings — a
key's `down` counter grows by exactly the number of its `keyDown` events
and its `up` counter by exactly the number of its `keyUp` events. -/
theorem C1_counters (s : Sys) (l : List Act) (id : String) :
    (keyStateOf (s.steps l) id).down = (keyStateOf s id).down + countKeyDown id l
    ∧ (keyStateOf (s.steps l) id).up = (keyStateOf s id).up + countKeyUp id l := by
  induction l generalizing s with
  | nil => simp [steps_nil, countKeyDown, countKeyUp]
  | cons a r ih =>
      rw [steps_cons]
      obtain ⟨d1, u1⟩ := step_counters s a id
      obtain ⟨d2, u2⟩ := ih (s.step a)
      constructor
      · rw [d2, d1, countKeyDown_cons id a r]
        omega
      · rw [u2, u1, countKeyUp_cons id a r]
        omega

/-- C10: a `keyUp` with no recorded press (`holdStartedAt` null) is
handled totally: the held duration is taken to be 0, `lastHoldDuration`
becomes 0, the up counter still increments, and the short-press path
runs — an `up` render plus the scheduled 2000 ms revert-to-idle timer. -/
theorem C10_stray_keyUp (s : Sys) (id : String)
    (h : (keyStateOf s id).holdStartedAt = none) :
    keyStateOf (s.onKeyUp id) id =
      { keyStateOf s id with
          up := (keyStateOf s id).up + 1,
          lastHoldDuration := some 0,
          holdStartedAt := none,
          holdTimerRef := none,
          upFlashTimer := some s.nextTid }
    ∧ (s.onKeyUp id).trace = s.trace ++ [.setImage id s.now
        ⟨"UP", ⟨(keyStateOf s id).down, (keyStateOf s id).up + 1⟩, .up, none, none⟩]
    ∧ (⟨s.nextTid, id, s.now + KEY_UP_FLASH_MS, .keyFlash⟩ : Timer) ∈ (s.onKeyUp id).pending := by
  have hd : keyUpHeld s id = 0 := by simp [keyUpHeld, h]
  have hlt : keyUpHeld s id < KEY_HOLD_THRESHOLD_MS := by
    rw [hd]
    norm_num [KEY_HOLD_THRESHOLD_MS]
  rw [onKeyUp_eq_flash s id hlt]
  refine ⟨?_, rfl, ?_⟩
  · simp [keyStateOf, hd]
  · simp

/-- C5: a key press arriving while a post-release revert timer is
outstanding cancels that timer before any other effect: the cancelled
revert can never fire again (for any later action sequence, firing its
handle is a no-op, so the pending `idle` render never happens), and the
press restarts the down/hold cycle — counter increment,
`holdStartedAt = now`, a `down` render, and a fresh 100 ms hold-tick
timer. -/
theorem C5_repress_cancels_revert (s : Sys) (id : String) (f d : Nat)
    (href : (keyStateOf s id).upFlashTimer = some f)
    (hmem : (⟨f, id, d, .keyFlash⟩ : Timer) ∈ s.pending)
    (hfresh : ∀ tm ∈ s.pending, tm.tid < s.nextTid) :
    (∀ tm ∈ (s.onKeyDown id).pending, tm.tid ≠ f)
    ∧ keyStateOf (s.onKeyDown id) id =
        { keyStateOf s id with
            down := (keyStateOf s id).down + 1,
            holdStartedAt := some s.now,
            lastHoldDuration := none,
            holdTimerRef := some s.nextTid,
            upFlashTimer := none }
    ∧ (s.onKeyDown id).trace = s.trace ++ [.setImage id s.now
        ⟨"DOWN", ⟨(keyStateOf s id).down + 1, (keyStateOf s id).up⟩, .down, none, none⟩]
    ∧ (⟨s.nextTid, id, s.now + KEY_HOLD_TIMER_INTERVAL_MS, .keyHold⟩ : Timer)
        ∈ (s.onKeyDown id).pending
    ∧ ∀ l : List Act, ((s.onKeyDown id).steps l).step (.fire f) = (s.onKeyDown id).steps l := by
  have hflt : f < s.nextTid := hfresh _ hmem
  have ha : ∀ tm ∈ (s.onKeyDown id).pending, tm.tid ≠ f := by
    rw [onKeyDown_eq]
    intro tm hm
    rcases List.mem_append.1 hm with hmem' | hmem'
    · have h2 : tm ∈ cancelTimer (keyStateOf s id).upFlashTimer
          (cancelTimer (keyStateOf s id).holdTimerRef s.pending) :=
        mem_cancelTimer (mem_cancelTimer hmem')
      rw [href] at h2
      exact cancelTimer_tid h2
    · simp at hmem'
      rw [show tm.tid = s.nextTid from by rw [hmem']]
      omega
  refine ⟨ha, ?_, ?_, ?_, ?_⟩
  · rw [onKeyDown_eq]
    simp [keyStateOf]
  · rw [onKeyDown_eq]
  · rw [onKeyDown_eq]
    simp
  · intro l
    have h2 : f < (s.onKeyDown id).nextTid := by
      rw [onKeyDown_eq]
      simp
      omega
    obtain ⟨g1, _⟩ := fresh_steps l (s.onKeyDown id) f ha h2
    exact step_fire_none g1

/-- C2: for every release of a pressed key, if the elapsed time since
the press is at least 500 ms, the release renders a final sticky `hold`
whose displayed duration is the frozen held time and schedules nothing;
if it is under 500 ms, the release renders `up` and schedules a one-shot
timer due exactly 2000 ms later whose firing (when no new press
intervened) renders `idle`. -/
theorem C2_release_paths (s : Sys) (id : String) (t0 : Nat)
    (h0 : (keyStateOf s id).holdStartedAt = some t0) (hpos : 0 < t0) (hle : t0 ≤ s.now)
    (hfresh : ∀ tm ∈ s.pending, tm.tid < s.nextTid) :
    (s.now - t0 ≥ KEY_HOLD_THRESHOLD_MS →
       (s.onKeyUp id).trace = s.trace ++ [.setImage id s.now
          ⟨"HOLD", ⟨(keyStateOf s id).down, (keyStateOf s id).up + 1⟩, .hold,
            some (((s.now - t0 : Nat) : ℚ) / 1000), none⟩]
       ∧ (keyStateOf (s.onKeyUp id) id).lastHoldDuration = some (s.now - t0)
       ∧ (s.onKeyUp id).nextTid = s.nextTid
       ∧ ∀ tm ∈ (s.onKeyUp id).pending, tm ∈ s.pending)
    ∧ (s.now - t0 < KEY_HOLD_THRESHOLD_MS →
       (s.onKeyUp id).trace = s.trace ++ [.setImage id s.now
          ⟨"UP", ⟨(keyStateOf s id).down, (keyStateOf s id).up + 1⟩, .up, none, none⟩]
       ∧ (⟨s.nextTid, id, s.now + KEY_UP_FLASH_MS, .keyFlash⟩ : Timer) ∈ (s.onKeyUp id).pending
       ∧ ((s.onKeyUp id).step (.fire s.nextTid)).trace
           = (s.onKeyUp id).trace ++ [.setImage id (s.now + KEY_UP_FLASH_MS)
              ⟨"READY", ⟨(keyStateOf s id).down, (keyStateOf s id).up + 1⟩, .idle, none, none⟩]) := by
  have hne : t0 ≠ 0 := hpos.ne'
  have hheld : keyUpHeld s id = s.now - t0 := by
    simp [keyUpHeld, h0, truthyTime, hne]
  constructor
  · intro hho
    have hh : keyUpHeld s id ≥ KEY_HOLD_THRESHOLD_MS := by rw [hheld]; exact hho
    rw [onKeyUp_eq_hold s id hh, hheld]
    refine ⟨rfl, ?_, rfl, ?_⟩
    · simp [keyStateOf, hheld]
    · intro tm hm
      exact mem_cancelTimer (mem_cancelTimer hm)
  · intro hlo
    have hh : keyUpHeld s id < KEY_HOLD_THRESHOLD_MS := by rw [hheld]; exact hlo
    rw [onKeyUp_eq_flash s id hh]
    refine ⟨rfl, by simp, ?_⟩
    have hchain : List.find? (fun tm : Timer => tm.tid == s.nextTid)
        (cancelTimer (keyStateOf s id).upFlashTimer
          (cancelTimer ((alistGet id s.keyTimers).bind KeyTimersEntry.hold)
            (cancelTimer (keyStateOf s id).holdTimerRef s.pending))) = none := by
      rw [List.find?_eq_none]
      intro a hma
      have ham : a ∈ s.pending := mem_cancelTimer (mem_cancelTimer (mem_cancelTimer hma))
      simp [Nat.ne_of_lt (hfresh a ham)]
    simp only [keyStateOf] at hchain
    simp only [Sys.step]
    simp [hchain, keyStateOf, Sys.fireTimer, Sys.setKey, Sys.renderKey]

/-- C3: two render requests for the same dial identity at t = 0 and
t = 5 (16 ms interval, fresh identity) produce exactly one draw, at
t = 16, carrying the label of the t = 5 request; in general a request
made while a flush is pending overwrites the pending label with its own,
and a trailing flush always draws the pending (most recent) label. -/
theorem C3_render_coalescing :
    (∀ la lb : String,
      (let s0 : Sys := { Sys.init with dials := [("d0", freshDialState)] };
       let s1 : Sys := s0.renderDial "d0" la (dialStateOf s0 "d0");
       let s2 : Sys := ({ s1 with now := 5 }).renderDial "d0" lb (dialStateOf s1 "d0");
       (s2.step (.fire 1)).trace = [.setFeedback "d0" 16 ⟨lb, ⟨0, 0, 0⟩, none, 0, .idle⟩]))
    ∧ (∀ (s : Sys) (id l : String) (st : DialState), st.renderTimer.isSome →
        (dialStateOf (s.renderDial id l st) id).pendingLabel = some l)
    ∧ (∀ (s : Sys) (tm : Timer) (fb l : String) (st : DialState),
        tm.kind = .dialFlush fb → alistGet tm.owner s.dials = some st →
        st.pendingLabel = some l →
        (s.fireTimer tm).trace = s.trace ++ [.setFeedback tm.owner tm.due (dialDrawOpts l st)]) := by
  refine ⟨?_, ?_, ?_⟩
  · intro la lb
    simp [Sys.renderDial, Sys.renderDialNow, Sys.setDial, Sys.step, Sys.fireTimer,
      dialStateOf, Sys.init, freshDialState, alistGet, alistSet, dialDrawOpts,
      DIAL_RENDER_INTERVAL_MS, cancelTimer]
  · intro s id l st hrt
    simp only [Sys.renderDial, Sys.renderDialNow, Sys.setDial]
    split
    · rename_i hcond
      rw [Option.isSome_iff_exists] at hrt
      obtain ⟨x, hx⟩ := hrt
      rw [hx] at hcond
      simp at hcond
    all_goals first
      | (split <;> simp [dialStateOf])
      | simp [dialStateOf]
  · intro s tm fb l st hk hd hpl
    rcases tm with ⟨tid, owner, due, kind⟩
    simp only [TimerKind.dialFlush.injEq] at hk
    subst hk
    simp [Sys.fireTimer, Sys.setDial, Sys.renderDialNow, hd, hpl, dialDrawOpts]

/-- Witness for C3: the scenario instantiated with labels "A" and "B",
plus the overwrite conjunct at a concrete pending state. -/
theorem C3_witness :
    (let s0 : Sys := { Sys.init with dials := [("d0", freshDialState)] };
     let s1 : Sys := s0.renderDial "d0" "A" (dialStateOf s0 "d0");
     let s2 : Sys := ({ s1 with now := 5 }).renderDial "d0" "B" (dialStateOf s1 "d0");
     (s2.step (.fire 1)).trace = [.setFeedback "d0" 16 ⟨"B", ⟨0, 0, 0⟩, none, 0, .idle⟩])
    ∧ ({ freshDialState with renderTimer := some 1 } : DialState).renderTimer.isSome = true
    ∧ (dialStateOf (({ Sys.init with dials := [("d0", { freshDialState with renderTimer := some 1 })] } : Sys).renderDial
          "d0" "C" { freshDialState with renderTimer := some 1 }) "d0").pendingLabel = some "C" :=
  ⟨C3_render_coalescing.1 "A" "B", by decide,
   C3_render_coalescing.2.1 { Sys.init with dials := [("d0", { freshDialState with renderTimer := some 1 })] }
     "d0" "C" { freshDialState with renderTimer := some 1 } (by decide)⟩

/-- C8: whenever a dial control appears, its state record is created
fresh for the new appearance (the `WeakMap` keyed by the per-appearance
action object cannot hold an entry for the new object), the column
offset is derived from the control's column index as
`column × canvas width`, and the render issued at appearance carries the
label `"READY"` with all three counters (`presses`, `rotates`,
`touches`) equal to zero and no tap dot; whenever the throttle window is
open (16 ms of wall clock have passed) the draw happens immediately and
its feedback payload shows exactly that. -/
theorem C8_appearance (s : Sys) (id : String) (column : Nat) :
    (dialStateOf (s.onWillAppear id false column) id).segmentOffsetX
        = (column : ℚ) * (TOUCH_CANVAS_WIDTH : ℚ)
    ∧ (dialStateOf (s.onWillAppear id false column) id).presses = 0
    ∧ (dialStateOf (s.onWillAppear id false column) id).rotates = 0
    ∧ (dialStateOf (s.onWillAppear id false column) id).touches = 0
    ∧ (dialStateOf (s.onWillAppear id false column) id).hasDot = false
    ∧ (s.onWillAppear id false column).requests = s.requests ++ [(id, "READY", s.now)]
    ∧ (DIAL_RENDER_INTERVAL_MS ≤ s.now →
        (s.onWillAppear id false column).trace
          = s.trace ++ [.setFeedback id s.now
              ⟨"READY", ⟨0, 0, 0⟩, none, (column : ℚ) * (TOUCH_CANVAS_WIDTH : ℚ), .idle⟩]) := by
  refine ⟨?_, ?_, ?_, ?_, ?_, ?_, ?_⟩ <;>
    first
      | (intro hnow
         have hcond : DIAL_RENDER_INTERVAL_MS ≤ s.now - (0 : Nat) := by simpa using hnow
         simp only [Sys.onWillAppear, Sys.setDial, Bool.false_eq_true, if_false,
           Sys.renderDial, Sys.renderDialNow, freshDialState]
         simp [dialStateOf, dialDrawOpts, hcond, hnow, freshDialState])
      | (simp only [Sys.onWillAppear, Sys.setDial, Bool.false_eq_true, if_false,
           Sys.renderDial, Sys.renderDialNow, freshDialState]
         first
           | (split
              · simp [dialStateOf]
              · split <;> simp [dialStateOf])
           | simp [dialStateOf])

/-- Witness for C8: dial `"d"` appearing at column 2 at t = 20 gets
offset 400, zero counters, no dot, and an immediate `"READY"` draw. -/
theorem C8_witness :
    (DIAL_RENDER_INTERVAL_MS ≤ ({ Sys.init with now := 20 } : Sys).now)
    ∧ (dialStateOf (({ Sys.init with now := 20 } : Sys).onWillAppear "d" false 2) "d").segmentOffsetX
        = (2 : ℚ) * (TOUCH_CANVAS_WIDTH : ℚ)
    ∧ (dialStateOf (({ Sys.init with now := 20 } : Sys).onWillAppear "d" false 2) "d").presses = 0
    ∧ (dialStateOf (({ Sys.init with now := 20 } : Sys).onWillAppear "d" false 2) "d").hasDot = false
    ∧ (({ Sys.init with now := 20 } : Sys).onWillAppear "d" false 2).trace
        = ({ Sys.init with now := 20 } : Sys).trace
          ++ [.setFeedback "d" 20
              ⟨"READY", ⟨0, 0, 0⟩, none, (2 : ℚ) * (TOUCH_CANVAS_WIDTH : ℚ), .idle⟩] :=
  ⟨by decide,
   (C8_appearance { Sys.init with now := 20 } "d" 2).1,
   (C8_appearance { Sys.init with now := 20 } "d" 2).2.1,
   (C8_appearance { Sys.init with now := 20 } "d" 2).2.2.2.2.1,
   by simpa using (C8_appearance { Sys.init with now := 20 } "d" 2).2.2.2.2.2.2 (by decide)⟩

/-- Witness for C2: a key pressed at t = 10 and released at t = 600 (a
590 ms hold) renders the sticky `hold` with the frozen duration, and the
same key released at t = 300 instead (a 290 ms tap) renders `up`. -/
theorem C2_witness :
    ((keyStateOf { Sys.init.step (.keyDown "k" 10) with now := 600 } "k").holdStartedAt = some 10)
    ∧ (({ Sys.init.step (.keyDown "k" 10) with now := 600 } : Sys).onKeyUp "k").trace
        = ({ Sys.init.step (.keyDown "k" 10) with now := 600 } : Sys).trace
          ++ [.setImage "k" ({ Sys.init.step (.keyDown "k" 10) with now := 600 } : Sys).now
              ⟨"HOLD",
                ⟨(keyStateOf { Sys.init.step (.keyDown "k" 10) with now := 600 } "k").down,
                 (keyStateOf { Sys.init.step (.keyDown "k" 10) with now := 600 } "k").up + 1⟩,
                .hold,
                some (((({ Sys.init.step (.keyDown "k" 10) with now := 600 } : Sys).now - 10 : Nat) : ℚ) / 1000),
                none⟩]
    ∧ (({ Sys.init.step (.keyDown "k" 10) with now := 300 } : Sys).onKeyUp "k").trace
        = ({ Sys.init.step (.keyDown "k" 10) with now := 300 } : Sys).trace
          ++ [.setImage "k" ({ Sys.init.step (.keyDown "k" 10) with now := 300 } : Sys).now
              ⟨"UP",
                ⟨(keyStateOf { Sys.init.step (.keyDown "k" 10) with now := 300 } "k").down,
                 (keyStateOf { Sys.init.step (.keyDown "k" 10) with now := 300 } "k").up + 1⟩,
                .up, none, none⟩] :=
  ⟨by decide,
   ((C2_release_paths { Sys.init.step (.keyDown "k" 10) with now := 600 } "k" 10
      (by decide) (by norm_num) (by decide) (by decide)).1 (by decide)).1,
   ((C2_release_paths { Sys.init.step (.keyDown "k" 10) with now := 300 } "k" 10
      (by decide) (by norm_num) (by decide) (by decide)).2 (by decide)).1⟩

/-- Witness for C4: after a short press/release of key `"k"` (revert
timer outstanding and tracked) and a dial press on `"d"` (render flush
outstanding), removing `"k"` leaves no timer owned by `"k"`. -/
theorem C4_witness :
    trackedForId "k"
      (Sys.init.steps [.keyDown "k" 10, .keyUp "k" 30, .appear "d" false 0 40, .dialDown "d" 41])
      = true
    ∧ (((Sys.init.steps [.keyDown "k" 10, .keyUp "k" 30, .appear "d" false 0 40,
          .dialDown "d" 41]).onWillDisappear "k").pending.all
        fun tm => tm.owner ≠ "k") = true :=
  ⟨by decide,
   List.all_eq_true.2 fun tm hm => by
    simpa using (C4_disappear_cancels
      (Sys.init.steps [.keyDown "k" 10, .keyUp "k" 30, .appear "d" false 0 40, .dialDown "d" 41])
      "k" (by decide)).1 tm hm⟩

/-- Witness for C5: re-pressing `"k"` at t = 100, while the revert
timer (handle 2, due t = 2030) from the release at t = 30 is pending,
makes any later firing of handle 2 a no-op. -/
theorem C5_witness :
    ((keyStateOf { Sys.init.steps [.keyDown "k" 10, .keyUp "k" 30] with now := 100 } "k").upFlashTimer
        = some 2)
    ∧ ((⟨2, "k", 2030, .keyFlash⟩ : Timer)
        ∈ ({ Sys.init.steps [.keyDown "k" 10, .keyUp "k" 30] with now := 100 } : Sys).pending)
    ∧ ((({ Sys.init.steps [.keyDown "k" 10, .keyUp "k" 30] with now := 100 } : Sys).onKeyDown "k").steps
          []).step (.fire 2)
        = (({ Sys.init.steps [.keyDown "k" 10, .keyUp "k" 30] with now := 100 } : Sys).onKeyDown "k").steps
          [] :=
  ⟨by decide, by decide,
   (C5_repress_cancels_revert { Sys.init.steps [.keyDown "k" 10, .keyUp "k" 30] with now := 100 }
      "k" 2 2030 (by decide) (by decide) (by decide)).2.2.2.2 []⟩

/-- Witness for C10: a `keyUp` on a fresh key with no preceding
`keyDown`. -/
theorem C10_witness :
    ((keyStateOf Sys.init "k").holdStartedAt = none)
    ∧ (keyStateOf (Sys.init.onKeyUp "k") "k" =
        { keyStateOf Sys.init "k" with
            up := (keyStateOf Sys.init "k").up + 1,
            lastHoldDuration := some 0,
            holdStartedAt := none,
            holdTimerRef := none,
            upFlashTimer := some Sys.init.nextTid }
      ∧ (Sys.init.onKeyUp "k").trace = Sys.init.trace ++ [.setImage "k" Sys.init.now
          ⟨"UP", ⟨(keyStateOf Sys.init "k").down, (keyStateOf Sys.init "k").up + 1⟩, .up, none, none⟩]
      ∧ (⟨Sys.init.nextTid, "k", Sys.init.now + KEY_UP_FLASH_MS, .keyFlash⟩ : Timer)
          ∈ (Sys.init.onKeyUp "k").pending) :=
  ⟨rfl, C10_stray_keyUp Sys.init "k" rfl⟩

/-- C7: for every `touchTap` with raw coordinates `(rawX, rawY)`, a
coordinate ≤ 1 is scaled by the canvas width (x) resp. height (y) and a
coordinate > 1 is used as-is; the dot centre is the clamped point shifted
by the 8-pixel radius, so the dot always lies fully inside the 200×100
canvas; a tap at `(0.5, 0.5)` puts the centre at `(100, 50)`, a tap at
`(195, 5)` is clamped to `(192, 8)`, and the requested label uses the
rounded original pre-scaling coordinates. -/
theorem C7_touchTap_geometry (s : Sys) (id : String) (rawX rawY : ℚ) (hold : Bool) :
    ((dialStateOf (s.onTouchTap id rawX rawY hold) id).dotX
        = clamp ((if rawX ≤ 1 then rawX * 200 else rawX) - 8) 0 (200 - 8 * 2) + 8
      ∧ (dialStateOf (s.onTouchTap id rawX rawY hold) id).dotY
        = clamp ((if rawY ≤ 1 then rawY * 100 else rawY) - 8) 0 (100 - 8 * 2) + 8)
    ∧ (8 ≤ (dialStateOf (s.onTouchTap id rawX rawY hold) id).dotX
      ∧ (dialStateOf (s.onTouchTap id rawX rawY hold) id).dotX + 8 ≤ 200
      ∧ 8 ≤ (dialStateOf (s.onTouchTap id rawX rawY hold) id).dotY
      ∧ (dialStateOf (s.onTouchTap id rawX rawY hold) id).dotY + 8 ≤ 100)
    ∧ (s.onTouchTap id rawX rawY hold).requests
        = s.requests ++ [(id, (if hold then "HOLD" else "TAP") ++ " "
            ++ toString (jsRound rawX) ++ "," ++ toString (jsRound rawY), s.now)]
    ∧ (dialStateOf (s.onTouchTap id (1/2) (1/2) hold) id).dotX = 100
    ∧ (dialStateOf (s.onTouchTap id (1/2) (1/2) hold) id).dotY = 50
    ∧ (dialStateOf (s.onTouchTap id 195 5 hold) id).dotX = 192
    ∧ (dialStateOf (s.onTouchTap id 195 5 hold) id).dotY = 8 := by
  have key : ∀ rx ry : ℚ,
      (dialStateOf (s.onTouchTap id rx ry hold) id).dotX
          = clamp ((if rx ≤ 1 then rx * 200 else rx) - 8) 0 (200 - 8 * 2) + 8
        ∧ (dialStateOf (s.onTouchTap id rx ry hold) id).dotY
          = clamp ((if ry ≤ 1 then ry * 100 else ry) - 8) 0 (100 - 8 * 2) + 8 := by
    intro rx ry
    obtain ⟨pl, rt, lra, h⟩ := onTouchTap_state s id rx ry hold
    rw [h]
    norm_num [TOUCH_CANVAS_WIDTH, TOUCH_CANVAS_HEIGHT, TOUCH_DOT_RADIUS]
  have bound : ∀ (v w : ℚ), 0 ≤ w → 0 ≤ clamp v 0 w ∧ clamp v 0 w ≤ w := by
    intro v w hw
    exact ⟨le_min (le_max_right _ _) hw, min_le_right _ _⟩
  refine ⟨key rawX rawY, ?_, onTouchTap_requests s id rawX rawY hold, ?_, ?_, ?_, ?_⟩
  · obtain ⟨hx, hy⟩ := key rawX rawY
    have bx := bound ((if rawX ≤ 1 then rawX * 200 else rawX) - 8) (200 - 8 * 2) (by norm_num)
    have by' := bound ((if rawY ≤ 1 then rawY * 100 else rawY) - 8) (100 - 8 * 2) (by norm_num)
    rw [hx, hy]
    refine ⟨by linarith [bx.1], by linarith [bx.2], by linarith [by'.1], by linarith [by'.2]⟩
  · rw [(key (1/2) (1/2)).1]
    rw [if_pos (by norm_num : (1 : ℚ)/2 ≤ 1), clamp]
    rw [max_eq_left (by norm_num), min_eq_left (by norm_num)]
    norm_num
  · rw [(key (1/2) (1/2)).2]
    rw [if_pos (by norm_num : (1 : ℚ)/2 ≤ 1), clamp]
    rw [max_eq_left (by norm_num), min_eq_left (by norm_num)]
    norm_num
  · rw [(key 195 5).1]
    rw [if_neg (by norm_num : ¬ (195 : ℚ) ≤ 1), clamp]
    rw [max_eq_left (by norm_num), min_eq_right (by norm_num)]
    norm_num
  · rw [(key 195 5).2]
    rw [if_neg (by norm_num : ¬ (5 : ℚ) ≤ 1), clamp]
    rw [max_eq_right (by norm_num), min_eq_left (by norm_num)]
    norm_num

/-- C6: over any sequence of `dialRotate` events, `rotates` (the
magnitude counter) grows by the sum of absolute tick deltas and
`netTicks` by their signed sum; each event requests a render labelled
with the running signed net, formatted as `"ROT 0"` / `"ROT +N"` /
`"ROT -N"`; e.g. ticks `[3, -1]` yield `netTicks = 2` with final label
`"ROT +2"`. -/
theorem C6_rotate_accumulation (s : Sys) (id : String) (l : List (Int × Nat)) :
    ((dialStateOf (s.steps (rotateActs id l)) id).rotates
        = (dialStateOf s id).rotates + ticksAbsSum l
      ∧ (dialStateOf (s.steps (rotateActs id l)) id).netTicks
        = (dialStateOf s id).netTicks + ticksSum l
      ∧ (s.steps (rotateActs id l)).requests
        = s.requests ++ rotateRequests id (dialStateOf s id).netTicks l)
    ∧ (formatSigned 0 = "0"
      ∧ (∀ n : Nat, formatSigned ((n : Int) + 1) = "+" ++ toString (n + 1))
      ∧ (∀ n : Nat, formatSigned (-((n : Int) + 1)) = "-" ++ toString (n + 1)))
    ∧ (dialStateOf (Sys.init.steps (rotateActs id [(3, 0), (-1, 1)])) id).netTicks = 2
    ∧ (Sys.init.steps (rotateActs id [(3, 0), (-1, 1)])).requests.map (fun p => p.2.1)
        = ["ROT +3", "ROT +2"] := by
  have main : ∀ (l : List (Int × Nat)) (s : Sys),
      (dialStateOf (s.steps (rotateActs id l)) id).rotates
          = (dialStateOf s id).rotates + ticksAbsSum l
        ∧ (dialStateOf (s.steps (rotateActs id l)) id).netTicks
          = (dialStateOf s id).netTicks + ticksSum l
        ∧ (s.steps (rotateActs id l)).requests
          = s.requests ++ rotateRequests id (dialStateOf s id).netTicks l := by
    intro l
    induction l with
    | nil => intro s; simp [rotateActs, ticksAbsSum, ticksSum, rotateRequests, Sys.steps]
    | cons p r ih =>
        intro s
        obtain ⟨k, t⟩ := p
        have hstep : Sys.steps s (rotateActs id ((k, t) :: r))
            = Sys.steps (Sys.onDialRotate { s with now := t } id k) (rotateActs id r) := by
          simp [rotateActs, Sys.steps, Sys.step]
        obtain ⟨pl, rt, lra, hst⟩ := onDialRotate_state { s with now := t } id k
        have hds : dialStateOf { s with now := t } id = dialStateOf s id := rfl
        obtain ⟨ih1, ih2, ih3⟩ := ih (Sys.onDialRotate { s with now := t } id k)
        refine ⟨?_, ?_, ?_⟩
        · rw [hstep, ih1, hst, hds]
          simp [ticksAbsSum]
          omega
        · rw [hstep, ih2, hst, hds]
          simp [ticksSum]
          ring
        · rw [hstep, ih3, hst, hds, onDialRotate_requests]
          simp [rotateRequests, dialStateOf]
  refine ⟨main l s, ⟨rfl, ?_, ?_⟩, ?_, ?_⟩
  · intro n
    unfold formatSigned
    rw [if_neg (by omega), if_pos (by omega)]
    rfl
  · intro n
    unfold formatSigned
    rw [if_neg (by omega), if_neg (by omega)]
    rfl
  · have h := (main [(3, 0), (-1, 1)] Sys.init).2.1
    rw [h]
    rfl
  · have h := (main [(3, 0), (-1, 1)] Sys.init).2.2
    rw [h]
    simp [Sys.init, dialStateOf, rotateRequests, freshDialState, alistGet]
    exact ⟨by decide, by decide⟩

/-- C9: both image builders are deterministic pure functions of their
options records (equal inputs yield identical SVG strings); each embeds its
free-text label only through `escapeSvg`; and escaping is sound: in
`escapeSvg label` the characters `<`, `>`, `"` and the apostrophe never
occur at all, and every occurrence of `&` is the start of one of the five
escape entities `&amp;`, `&lt;`, `&gt;`, `&quot;`, `&apos;` — so none of
the five special characters ever appears unescaped in the label portion of
the generated markup. -/
theorem C9_deterministic_escaped :
    (∀ o₁ o₂ : KeySvgOpts, o₁ = o₂ → buildKeySvg o₁ = buildKeySvg o₂)
    ∧ (∀ o₁ o₂ : DialSvgOpts, o₁ = o₂ → buildDialSvg o₁ = buildDialSvg o₂)
    ∧ (∀ o : KeySvgOpts,
        buildKeySvg o = jsTrim (keyRawPre o ++ escapeSvg o.label ++ keyRawPost o))
    ∧ (∀ o : DialSvgOpts,
        buildDialSvg o = jsTrim (dialRawPre o ++ escapeSvg o.label ++ dialRawPost o))
    ∧ (∀ label : String, ∀ c ∈ (escapeSvg label).data,
        c ≠ '<' ∧ c ≠ '>' ∧ c ≠ '"' ∧ c ≠ APOS)
    ∧ (∀ (label : String) (i : Nat) (r : List Char),
        (escapeSvg label).data.drop i = '&' :: r →
        ∃ e ∈ svgEntities, ∃ t, (escapeSvg label).data.drop i = e ++ t) := by
  refine ⟨fun o₁ o₂ h => by rw [h], fun o₁ o₂ h => by rw [h],
    fun _ => rfl, fun _ => rfl, escapeSvg_no_raw, ?_⟩
  intro label i r h
  rw [escapeSvg_data] at h ⊢
  exact flatMap_escChar_amp label.data i r h

/-- Witness for C9: two syntactically distinct but equal key-options records
produce the same SVG, and on the concrete label `"a&b<c"` the escaped data
contains none of `<`, `>`, `"`, apostrophe. -/
theorem C9_witness :
    buildKeySvg ⟨"A<B", ⟨1, 2⟩, .idle, none, none⟩
        = buildKeySvg ⟨"A<B", ⟨1, 1 + 1⟩, .idle, none, none⟩
    ∧ ((escapeSvg "a&b<c").data.all fun c =>
        decide (c ≠ '<') && decide (c ≠ '>') && decide (c ≠ '"')
          && decide (c ≠ APOS)) = true := by
  refine ⟨C9_deterministic_escaped.1 _ _ rfl, List.all_eq_true.2 fun c hc => ?_⟩
  obtain ⟨h1, h2, h3, h4⟩ := C9_deterministic_escaped.2.2.2.2.1 "a&b<c" c hc
  simp [h1, h2, h3, h4]

end TestMe
